import Mathlib

/-!
Shallow embedding of the LLM-Chess-Eval game adjudication core:
`src/move_validator.py` (MoveValidator), `src/game_manager.py`
(GameManager.play_llm_vs_engine / play_llm_vs_llm), the failure mapping of
`src/llm_player.py` (LLMPlayer.get_move) and of `src/chess_engine.py`
(ChessEngine.get_move).

The chess rules engine itself is the third-party `python-chess` library; the
repository only calls its query methods (`turn`, `legal_moves`, `parse_san`,
`push`, `is_game_over`, `is_checkmate`, ...).  We embed that collaborator as an
abstract interface `ChessApi` over a board type `B`, and embed the one piece of
library behaviour the control flow depends on — `Board.is_game_over()` with its
default `claim_draw=False` — as a definition (`ChessApi.is_game_over`) in terms
of the interface's primitive queries, exactly as the python-chess sources
compute it (checkmate, stalemate, insufficient material, seventy-five-move
rule, fivefold repetition; the claimable fifty-move and threefold-repetition
draws do NOT end the game automatically).
-/

namespace LLMChessEval

/-- Engine-native move representation (`chess.Move`); the game record stores
`str(move)`, its UCI text, so we carry that text. -/
structure Move where
  uci : String
deriving DecidableEq, Repr

/-- Agent identity: the `model_name` string keying the illegal-move dict. -/
abbrev AgentId := String

/-! ### The python dict of illegal-move counts

`MoveValidator.illegal_moves_count` is a python dict from model name to count.
We embed it as an association list; `dictGet` is `d.get(k, 0)` and `dictSet`
is `d[k] = v`. -/

/-- Python `str.strip()` (no arguments): drop leading and trailing whitespace
characters.  Defined over the character list so it is kernel-computable. -/
def pyStrip (s : String) : String :=
  ⟨((s.data.dropWhile Char.isWhitespace).reverse.dropWhile
      Char.isWhitespace).reverse⟩

/-- The python dict `illegal_moves_count`, as an association list. -/
abbrev IllegalCounts := List (AgentId × Nat)

/-- `d.get(k, 0)`: the stored count, `0` when the key is absent. -/
def dictGet (m : IllegalCounts) (k : AgentId) : Nat :=
  match m with
  | [] => 0
  | p :: rest => if p.1 = k then p.2 else dictGet rest k

/-- `d[k] = v`: overwrite the first binding of `k`, or append a new one. -/
def dictSet (m : IllegalCounts) (k : AgentId) (v : Nat) : IllegalCounts :=
  match m with
  | [] => [(k, v)]
  | p :: rest => if p.1 = k then (k, v) :: rest else p :: dictSet rest k v

/-! ### python-chess board interface (`ChessApi`)

Only the queries the repository actually calls.  `turn` is `Board.turn`,
`true` standing for `chess.WHITE`. -/

/-- The python-chess `Board` operations used by the repository, over an
abstract board type `B`. -/
structure ChessApi (B : Type) where
  turn : B → Bool
  isCheckmate : B → Bool
  isStalemate : B → Bool
  isInsufficientMaterial : B → Bool
  isFiftyMoves : B → Bool
  isRepetition : B → Bool
  isSeventyfiveMoves : B → Bool
  isFivefoldRepetition : B → Bool
  legalMoves : B → List Move
  parseSan : B → String → Option Move
  push : B → Move → B

/-- python-chess `Board.is_game_over()` with the default `claim_draw=False`:
checkmate, stalemate, insufficient material, seventy-five-move rule or
fivefold repetition.  The claimable fifty-move / threefold-repetition draws do
not terminate the game here. -/
def ChessApi.is_game_over {B : Type} (api : ChessApi B) (b : B) : Bool :=
  api.isCheckmate b || api.isStalemate b || api.isInsufficientMaterial b ||
    api.isSeventyfiveMoves b || api.isFivefoldRepetition b

/-! ### MoveValidator (`src/move_validator.py`) -/

/-- `MoveValidator`: holds the per-model illegal-move dict. -/
structure MoveValidator where
  illegal_moves_count : IllegalCounts
deriving DecidableEq, Repr

/-- `MoveValidator.reset_counter`: `self.illegal_moves_count[model_name] = 0`. -/
def MoveValidator.reset_counter (mv : MoveValidator) (model_name : AgentId) :
    MoveValidator :=
  ⟨dictSet mv.illegal_moves_count model_name 0⟩

/-- `MoveValidator.get_illegal_moves_count`:
`self.illegal_moves_count.get(model_name, 0)`. -/
def MoveValidator.get_illegal_moves_count (mv : MoveValidator)
    (model_name : AgentId) : Nat :=
  dictGet mv.illegal_moves_count model_name

/-- `MoveValidator.validate_move`: strip the proposal, `parse_san` it, accept
iff the parsed move is in `board.legal_moves`; on either failure (parse
`ValueError`, or parsed-but-not-legal) bump the model's dict entry via
`d.get(model_name, 0) + 1` and return `(False, None)`. -/
def MoveValidator.validate_move {B : Type} (api : ChessApi B)
    (mv : MoveValidator) (board : B) (move_str : String)
    (model_name : AgentId) : (Bool × Option Move) × MoveValidator :=
  match api.parseSan board (pyStrip move_str) with
  | some move =>
      if move ∈ api.legalMoves board then
        ((true, some move), mv)
      else
        ((false, none),
          ⟨dictSet mv.illegal_moves_count model_name
              (dictGet mv.illegal_moves_count model_name + 1)⟩)
  | none =>
      ((false, none),
        ⟨dictSet mv.illegal_moves_count model_name
            (dictGet mv.illegal_moves_count model_name + 1)⟩)

/-! ### LLM move source (`src/llm_player.py`) and engine source
(`src/chess_engine.py`)

`LLMPlayer.get_move` returns the model's reply stripped, and on any exception
returns the sentinel string `"ERROR"` ("Return an obviously invalid move to
trigger the illegal move counter").  `ChessEngine.get_move` returns a move or
`None` on any exception.  Each source is a stream indexed by its request
counter, which subsumes any dependence on the position or history. -/

/-- Outcome of one `litellm.completion` call inside `LLMPlayer.get_move`. -/
inductive LLMOutcome where
  | success (content : String)
  | failure
deriving DecidableEq, Repr

/-- `LLMPlayer.get_move`: the stripped reply, or the `"ERROR"` sentinel when
the completion call raises. -/
def llmGetMove (o : LLMOutcome) : String :=
  match o with
  | .success content => pyStrip content
  | .failure => "ERROR"

/-! ### Game results (`game_record["result"]` strings) -/

/-- The result strings the two game loops ever write. -/
inductive GameResult where
  | engine_won_illegal_moves
  | error_engine_move
  | llm_won
  | engine_won
  | draw_stalemate
  | draw_insufficient_material
  | draw_fifty_moves
  | draw_repetition
  | black_won_illegal_moves
  | white_won_illegal_moves
  | black_won
  | white_won
deriving DecidableEq, Repr

/-! ### Turn Controller state, `play_llm_vs_engine` (`src/game_manager.py`) -/

/-- One loop iteration either falls through / `continue`s (loop again) or
`break`s out with the result already set. -/
inductive LoopStep (S : Type) where
  | cont (s : S)
  | brk (s : S)
deriving DecidableEq, Repr

/-- The state carried by the `LoopStep`, whichever constructor. -/
def LoopStep.state {S : Type} : LoopStep S → S
  | .cont s => s
  | .brk s => s

/-- Whether the step broke out of the loop. -/
def LoopStep.isBrk {S : Type} : LoopStep S → Bool
  | .cont _ => false
  | .brk _ => true

/-- Mutable state of one `play_llm_vs_engine` run: the board, the validator,
and the `game_record` fields written during the loop.  `lastIsLlmTurn` is the
python local `is_llm_turn`, reassigned at the top of every iteration and read
by the post-loop classifier. -/
structure EngineGameState (B : Type) where
  board : B
  validator : MoveValidator
  moves : List Move
  result : Option GameResult
  llmReq : Nat
  engReq : Nat
  lastIsLlmTurn : Bool
deriving DecidableEq, Repr

/-- `is_llm_turn = (self.board.turn == chess.WHITE) == llm_plays_white`
(with `turn : Bool`, `true = WHITE`, this is `turn == llm_plays_white`). -/
def isLlmTurn {B : Type} (api : ChessApi B) (llm_plays_white : Bool)
    (b : B) : Bool :=
  api.turn b == llm_plays_white

/-- One iteration of the `play_llm_vs_engine` while-loop body (the loop guard
`while not self.board.is_game_over()` lives in `gameLoop`).  The
`(true, none)` validator shape never occurs (`validate_move` returns a move
whenever it accepts); that branch is a no-op continue. -/
def engineStep {B : Type} (api : ChessApi B) (llmName : AgentId)
    (lpw : Bool) (llmSrc : Nat → LLMOutcome) (engSrc : Nat → Option Move)
    (s : EngineGameState B) : LoopStep (EngineGameState B) :=
  if isLlmTurn api lpw s.board then
    match MoveValidator.validate_move api s.validator s.board
        (llmGetMove (llmSrc s.llmReq)) llmName with
    | ((false, _), v') =>
        if 3 ≤ v'.get_illegal_moves_count llmName then
          .brk { s with
                 validator := v'
                 llmReq := s.llmReq + 1
                 lastIsLlmTurn := true
                 result := some .engine_won_illegal_moves }
        else
          .cont { s with
                  validator := v'
                  llmReq := s.llmReq + 1
                  lastIsLlmTurn := true }
    | ((true, some move), v') =>
        .cont { s with
                validator := v'
                llmReq := s.llmReq + 1
                lastIsLlmTurn := true
                board := api.push s.board move
                moves := s.moves ++ [move] }
    | ((true, none), v') =>
        .cont { s with
                validator := v'
                llmReq := s.llmReq + 1
                lastIsLlmTurn := true }
  else
    match engSrc s.engReq with
    | none =>
        .brk { s with
               result := some .error_engine_move
               engReq := s.engReq + 1
               lastIsLlmTurn := false }
    | some move =>
        .cont { s with
                board := api.push s.board move
                moves := s.moves ++ [move]
                engReq := s.engReq + 1
                lastIsLlmTurn := false }

/-- The `while not over: ... continue/break` loop, fuel-indexed; `none` means
the fuel ran out before the loop did. -/
def gameLoop {S : Type} (over : S → Bool) (step : S → LoopStep S) :
    Nat → S → Option S
  | 0, _ => none
  | fuel + 1, s =>
      if over s then some s
      else
        match step s with
        | .brk s' => some s'
        | .cont s' => gameLoop over step fuel s'

/-- The post-loop classifier chain of `play_llm_vs_engine` ("Record final game
state if not already set"), as the value it assigns: the if/elif chain over
`is_checkmate`, `is_stalemate`, `is_insufficient_material`, `is_fifty_moves`,
`is_repetition`, in that order; `none` when no branch fires. -/
def classifyResultEngine {B : Type} (api : ChessApi B) (lastLlm : Bool)
    (b : B) : Option GameResult :=
  if api.isCheckmate b then
    some (if lastLlm then .llm_won else .engine_won)
  else if api.isStalemate b then some .draw_stalemate
  else if api.isInsufficientMaterial b then some .draw_insufficient_material
  else if api.isFiftyMoves b then some .draw_fifty_moves
  else if api.isRepetition b then some .draw_repetition
  else none

/-- Apply the post-loop classifier: only when `game_record["result"]` is still
unset. -/
def classifyEngine {B : Type} (api : ChessApi B) (s : EngineGameState B) :
    EngineGameState B :=
  if s.result.isSome then s
  else { s with result := classifyResultEngine api s.lastIsLlmTurn s.board }

/-- The sealed `game_record` of `play_llm_vs_engine` (timestamp and skill
level are opaque metadata and omitted). -/
structure EngineRecord where
  llm_model : AgentId
  llm_plays_white : Bool
  moves : List Move
  result : Option GameResult
  illegal_moves : Nat
deriving DecidableEq, Repr

/-- The state at the top of the `play_llm_vs_engine` loop: fresh board,
the LLM's counter reset, empty `game_record` fields. -/
def initEngineState {B : Type} (b0 : B) (mv0 : MoveValidator)
    (llmName : AgentId) : EngineGameState B :=
  { board := b0
    validator := mv0.reset_counter llmName
    moves := []
    result := none
    llmReq := 0
    engReq := 0
    lastIsLlmTurn := true }

/-- Post-loop finalisation of `play_llm_vs_engine`: run the classifier when
the result is unset and seal the record, reading `illegal_moves` back from
the validator. -/
def sealEngine {B : Type} (api : ChessApi B) (llmName : AgentId)
    (lpw : Bool) (s : EngineGameState B) :
    EngineRecord × EngineGameState B :=
  ({ llm_model := llmName
     llm_plays_white := lpw
     moves := (classifyEngine api s).moves
     result := (classifyEngine api s).result
     illegal_moves :=
       (classifyEngine api s).validator.get_illegal_moves_count llmName },
   classifyEngine api s)

/-- `GameManager.play_llm_vs_engine`: reset the LLM's counter, run the loop
from board `b0`, classify, and seal the record.  Also returns the final
classified state. -/
def play_llm_vs_engine {B : Type} (api : ChessApi B) (b0 : B)
    (mv0 : MoveValidator) (llmName : AgentId) (lpw : Bool)
    (llmSrc : Nat → LLMOutcome) (engSrc : Nat → Option Move) (fuel : Nat) :
    Option (EngineRecord × EngineGameState B) :=
  (gameLoop (fun s => api.is_game_over s.board)
      (engineStep api llmName lpw llmSrc engSrc) fuel
      (initEngineState b0 mv0 llmName)).map (sealEngine api llmName lpw)

/-! ### `play_llm_vs_llm` (`src/game_manager.py`) -/

/-- Mutable state of one `play_llm_vs_llm` run. -/
structure LLMGameState (B : Type) where
  board : B
  validator : MoveValidator
  moves : List Move
  result : Option GameResult
  whiteReq : Nat
  blackReq : Nat
deriving DecidableEq, Repr

/-- One iteration of the `play_llm_vs_llm` while-loop body: the current player
is white iff `board.turn == chess.WHITE`; on rejection with the current
player's count at 3 the result names the *other* side as winner. -/
def llmStep {B : Type} (api : ChessApi B) (wName bName : AgentId)
    (wSrc bSrc : Nat → LLMOutcome) (s : LLMGameState B) :
    LoopStep (LLMGameState B) :=
  if api.turn s.board then
    match MoveValidator.validate_move api s.validator s.board
        (llmGetMove (wSrc s.whiteReq)) wName with
    | ((false, _), v') =>
        if 3 ≤ v'.get_illegal_moves_count wName then
          .brk { s with
                 validator := v'
                 whiteReq := s.whiteReq + 1
                 result := some .black_won_illegal_moves }
        else
          .cont { s with validator := v', whiteReq := s.whiteReq + 1 }
    | ((true, some move), v') =>
        .cont { s with
                validator := v'
                whiteReq := s.whiteReq + 1
                board := api.push s.board move
                moves := s.moves ++ [move] }
    | ((true, none), v') =>
        .cont { s with validator := v', whiteReq := s.whiteReq + 1 }
  else
    match MoveValidator.validate_move api s.validator s.board
        (llmGetMove (bSrc s.blackReq)) bName with
    | ((false, _), v') =>
        if 3 ≤ v'.get_illegal_moves_count bName then
          .brk { s with
                 validator := v'
                 blackReq := s.blackReq + 1
                 result := some .white_won_illegal_moves }
        else
          .cont { s with validator := v', blackReq := s.blackReq + 1 }
    | ((true, some move), v') =>
        .cont { s with
                validator := v'
                blackReq := s.blackReq + 1
                board := api.push s.board move
                moves := s.moves ++ [move] }
    | ((true, none), v') =>
        .cont { s with validator := v', blackReq := s.blackReq + 1 }

/-- The post-loop classifier chain of `play_llm_vs_llm`: on checkmate the side
still to move on the final board is the mated side, so the *other* side wins;
then the same draw chain in the same order. -/
def classifyResultLLM {B : Type} (api : ChessApi B) (b : B) :
    Option GameResult :=
  if api.isCheckmate b then
    some (if api.turn b then .black_won else .white_won)
  else if api.isStalemate b then some .draw_stalemate
  else if api.isInsufficientMaterial b then some .draw_insufficient_material
  else if api.isFiftyMoves b then some .draw_fifty_moves
  else if api.isRepetition b then some .draw_repetition
  else none

/-- Apply the `play_llm_vs_llm` post-loop classifier when the result is still
unset. -/
def classifyLLM {B : Type} (api : ChessApi B) (s : LLMGameState B) :
    LLMGameState B :=
  if s.result.isSome then s
  else { s with result := classifyResultLLM api s.board }

/-- The sealed `game_record` of `play_llm_vs_llm`. -/
structure LLMRecord where
  white_model : AgentId
  black_model : AgentId
  moves : List Move
  result : Option GameResult
  white_illegal_moves : Nat
  black_illegal_moves : Nat
deriving DecidableEq, Repr

/-- The state at the top of the `play_llm_vs_llm` loop: fresh board, both
counters reset, empty `game_record` fields. -/
def initLLMState {B : Type} (b0 : B) (mv0 : MoveValidator)
    (wName bName : AgentId) : LLMGameState B :=
  { board := b0
    validator := (mv0.reset_counter wName).reset_counter bName
    moves := []
    result := none
    whiteReq := 0
    blackReq := 0 }

/-- Post-loop finalisation of `play_llm_vs_llm`. -/
def sealLLM {B : Type} (api : ChessApi B) (wName bName : AgentId)
    (s : LLMGameState B) : LLMRecord × LLMGameState B :=
  ({ white_model := wName
     black_model := bName
     moves := (classifyLLM api s).moves
     result := (classifyLLM api s).result
     white_illegal_moves :=
       (classifyLLM api s).validator.get_illegal_moves_count wName
     black_illegal_moves :=
       (classifyLLM api s).validator.get_illegal_moves_count bName },
   classifyLLM api s)

/-- `GameManager.play_llm_vs_llm`: reset both counters, run the loop,
classify, seal the record. -/
def play_llm_vs_llm {B : Type} (api : ChessApi B) (b0 : B)
    (mv0 : MoveValidator) (wName bName : AgentId)
    (wSrc bSrc : Nat → LLMOutcome) (fuel : Nat) :
    Option (LLMRecord × LLMGameState B) :=
  (gameLoop (fun s => api.is_game_over s.board)
      (llmStep api wName bName wSrc bSrc) fuel
      (initLLMState b0 mv0 wName bName)).map (sealLLM api wName bName)

/-- Replaying a recorded move list from a starting board: fold `push`. -/
def replayBoard {B : Type} (api : ChessApi B) (b0 : B)
    (moves : List Move) : B :=
  moves.foldl api.push b0

/-- Shape of a rejection: the validator with the proposing agent's dict entry
bumped by one, exactly as both rejection branches of `validate_move` build
it. -/
def bumpCounter (mv : MoveValidator) (a : AgentId) : MoveValidator :=
  ⟨dictSet mv.illegal_moves_count a (dictGet mv.illegal_moves_count a + 1)⟩

/-! ### Concrete board scripts for witnesses

Tiny concrete instantiations of `ChessApi` used to exercise the theorems on
closed inputs. -/

/-- A one-position board: pawn push `e4` is the only legal move; `Qh5` parses
to the null move `0000` (python-chess accepts it) which is not legal;
anything else fails to parse. -/
def unitApi : ChessApi Unit where
  turn := fun _ => true
  isCheckmate := fun _ => false
  isStalemate := fun _ => false
  isInsufficientMaterial := fun _ => false
  isFiftyMoves := fun _ => false
  isRepetition := fun _ => false
  isSeventyfiveMoves := fun _ => false
  isFivefoldRepetition := fun _ => false
  legalMoves := fun _ => [⟨"e2e4"⟩]
  parseSan := fun _ s =>
    if s == "e4" then some ⟨"e2e4"⟩
    else if s == "Qh5" then some ⟨"0000"⟩
    else none
  push := fun b _ => b

/-- `unitApi` with Black to move. -/
def unitApiB : ChessApi Unit := { unitApi with turn := fun _ => false }

/-- A fresh `play_llm_vs_engine` loop state over the `Unit` board. -/
def engS0 : EngineGameState Unit :=
  { board := ()
    validator := ⟨[]⟩
    moves := []
    result := none
    llmReq := 0
    engReq := 0
    lastIsLlmTurn := true }

/-- A fresh `play_llm_vs_llm` loop state over the `Unit` board. -/
def llmS0 : LLMGameState Unit :=
  { board := ()
    validator := ⟨[]⟩
    moves := []
    result := none
    whiteReq := 0
    blackReq := 0 }

/-- A scripted board over `Nat` counting applied plies: White on even plies,
checkmate after ply 1, fifty-move flag after ply 2, fivefold (and threefold)
repetition after ply 4; `Qh7` is the only parsable (and legal) proposal. -/
def natApi : ChessApi Nat where
  turn := fun b => b % 2 == 0
  isCheckmate := fun b => b == 1
  isStalemate := fun _ => false
  isInsufficientMaterial := fun _ => false
  isFiftyMoves := fun b => b == 2
  isRepetition := fun b => b == 4
  isSeventyfiveMoves := fun _ => false
  isFivefoldRepetition := fun b => b == 4
  legalMoves := fun _ => [⟨"h5h7"⟩]
  parseSan := fun _ s => if s == "Qh7" then some ⟨"h5h7"⟩ else none
  push := fun b _ => b + 1

/-- A scripted board over `Nat` on which the fifty-move flag rises from ply
2 on while the automatic game-over conditions appear only later: checkmate
at ply 3, the seventy-five-move rule at ply 5. -/
def fiftyApi : ChessApi Nat where
  turn := fun b => b % 2 == 0
  isCheckmate := fun b => b == 3
  isStalemate := fun _ => false
  isInsufficientMaterial := fun _ => false
  isFiftyMoves := fun b => 2 ≤ b
  isRepetition := fun _ => false
  isSeventyfiveMoves := fun b => b == 5
  isFivefoldRepetition := fun _ => false
  legalMoves := fun _ => [⟨"h5h7"⟩]
  parseSan := fun _ s => if s == "Qh7" then some ⟨"h5h7"⟩ else none
  push := fun b _ => b + 1

/-- An engine-loop state sitting at the seventy-five-move board of
`fiftyApi`. -/
def engN5 : EngineGameState Nat :=
  { board := 5
    validator := ⟨[]⟩
    moves := []
    result := none
    llmReq := 0
    engReq := 0
    lastIsLlmTurn := true }

/-- An LLM-vs-LLM state sitting at the seventy-five-move board of
`fiftyApi`. -/
def llmN5 : LLMGameState Nat :=
  { board := 5
    validator := ⟨[]⟩
    moves := []
    result := none
    whiteReq := 0
    blackReq := 0 }

/-- A fresh `play_llm_vs_engine` loop state over the `Nat` board. -/
def engN0 : EngineGameState Nat :=
  { board := 0
    validator := ⟨[]⟩
    moves := []
    result := none
    llmReq := 0
    engReq := 0
    lastIsLlmTurn := true }

/-- A fresh `play_llm_vs_llm` loop state over the `Nat` board. -/
def llmN0 : LLMGameState Nat :=
  { board := 0
    validator := ⟨[]⟩
    moves := []
    result := none
    whiteReq := 0
    blackReq := 0 }

/-- The `Nat`-board engine-loop state after the scripted `Qh7` push. -/
def engN1 : EngineGameState Nat :=
  { board := 1
    validator := ⟨[]⟩
    moves := [⟨"h5h7"⟩]
    result := none
    llmReq := 1
    engReq := 0
    lastIsLlmTurn := true }

/-- The `Nat`-board LLM-vs-LLM state after the scripted `Qh7` push. -/
def llmN1 : LLMGameState Nat :=
  { board := 1
    validator := ⟨[]⟩
    moves := [⟨"h5h7"⟩]
    result := none
    whiteReq := 1
    blackReq := 0 }

/-- Sealed record of the scripted all-rejections engine-loop game. -/
def engRecForfeit : EngineRecord :=
  { llm_model := "modelA"
    llm_plays_white := true
    moves := []
    result := some .engine_won_illegal_moves
    illegal_moves := 3 }

/-- Final state of the scripted all-rejections engine-loop game. -/
def engSfForfeit : EngineGameState Unit :=
  { board := ()
    validator := ⟨[("modelA", 3)]⟩
    moves := []
    result := some .engine_won_illegal_moves
    llmReq := 3
    engReq := 0
    lastIsLlmTurn := true }

/-- Sealed record of the scripted all-rejections LLM-vs-LLM game. -/
def llmRecForfeit : LLMRecord :=
  { white_model := "w"
    black_model := "b"
    moves := []
    result := some .black_won_illegal_moves
    white_illegal_moves := 3
    black_illegal_moves := 0 }

/-- Final state of the scripted all-rejections LLM-vs-LLM game. -/
def llmSfForfeit : LLMGameState Unit :=
  { board := ()
    validator := ⟨[("w", 3), ("b", 0)]⟩
    moves := []
    result := some .black_won_illegal_moves
    whiteReq := 3
    blackReq := 0 }

/-- Sealed record of the scripted one-move checkmate engine-loop game. -/
def engRecMate : EngineRecord :=
  { llm_model := "modelA"
    llm_plays_white := true
    moves := [⟨"h5h7"⟩]
    result := some .llm_won
    illegal_moves := 0 }

/-- Final state of the scripted one-move checkmate engine-loop game. -/
def engSfMate : EngineGameState Nat :=
  { board := 1
    validator := ⟨[("modelA", 0)]⟩
    moves := [⟨"h5h7"⟩]
    result := some .llm_won
    llmReq := 1
    engReq := 0
    lastIsLlmTurn := true }

/-- Sealed record of the scripted one-move checkmate LLM-vs-LLM game. -/
def llmRecMate : LLMRecord :=
  { white_model := "w"
    black_model := "b"
    moves := [⟨"h5h7"⟩]
    result := some .white_won
    white_illegal_moves := 0
    black_illegal_moves := 0 }

/-- Final state of the scripted one-move checkmate LLM-vs-LLM game. -/
def llmSfMate : LLMGameState Nat :=
  { board := 1
    validator := ⟨[("w", 0), ("b", 0)]⟩
    moves := [⟨"h5h7"⟩]
    result := some .white_won
    whiteReq := 1
    blackReq := 0 }

/-! ### Dictionary lemmas -/

theorem dictGet_dictSet_self (m : IllegalCounts) (k : AgentId) (v : Nat) :
    dictGet (dictSet m k v) k = v := by
  induction m with
  | nil => simp [dictGet, dictSet]
  | cons p rest ih =>
      by_cases h : p.1 = k
      · simp [dictGet, dictSet, h]
      · simp [dictGet, dictSet, h, ih]

theorem dictGet_dictSet_ne (m : IllegalCounts) (k k' : AgentId) (v : Nat)
    (h : k' ≠ k) : dictGet (dictSet m k v) k' = dictGet m k' := by
  have hk : ¬(k = k') := fun e => h e.symm
  induction m with
  | nil => simp [dictGet, dictSet, hk]
  | cons p rest ih =>
      by_cases hp : p.1 = k
      · have hp1 : ¬(p.1 = k') := by rw [hp]; exact hk
        simp [dictGet, dictSet, hp, hk, hp1]
      · by_cases hq : p.1 = k'
        · simp [dictGet, dictSet, hp, hq, hk, h]
        · simp [dictGet, dictSet, hp, hq, ih]

/-! ### Validator lemmas shared across claims -/

theorem validate_move_parse_fail {B : Type} (api : ChessApi B)
    (mv : MoveValidator) (b : B) (raw : String) (a : AgentId)
    (h : api.parseSan b (pyStrip raw) = none) :
    MoveValidator.validate_move api mv b raw a =
      ((false, none), bumpCounter mv a) := by
  unfold MoveValidator.validate_move bumpCounter
  rw [h]

theorem validate_move_not_legal {B : Type} (api : ChessApi B)
    (mv : MoveValidator) (b : B) (raw : String) (m : Move) (a : AgentId)
    (h : api.parseSan b (pyStrip raw) = some m)
    (hm : m ∉ api.legalMoves b) :
    MoveValidator.validate_move api mv b raw a =
      ((false, none), bumpCounter mv a) := by
  unfold MoveValidator.validate_move bumpCounter
  rw [h]
  simp [hm]

theorem validate_move_accept_eq {B : Type} (api : ChessApi B)
    (mv : MoveValidator) (b : B) (raw : String) (m : Move) (a : AgentId)
    (h : api.parseSan b (pyStrip raw) = some m)
    (hm : m ∈ api.legalMoves b) :
    MoveValidator.validate_move api mv b raw a = ((true, some m), mv) := by
  unfold MoveValidator.validate_move
  rw [h]
  simp [hm]

theorem validate_move_accept_shape {B : Type} (api : ChessApi B)
    (mv : MoveValidator) (b : B) (raw : String) (a : AgentId)
    (hacc : (MoveValidator.validate_move api mv b raw a).1.1 = true) :
    ∃ m, api.parseSan b (pyStrip raw) = some m ∧ m ∈ api.legalMoves b ∧
      MoveValidator.validate_move api mv b raw a = ((true, some m), mv) := by
  cases hp : api.parseSan b (pyStrip raw) with
  | none =>
      rw [validate_move_parse_fail api mv b raw a hp] at hacc
      simp at hacc
  | some m =>
      by_cases hm : m ∈ api.legalMoves b
      · exact ⟨m, rfl, hm, validate_move_accept_eq api mv b raw m a hp hm⟩
      · rw [validate_move_not_legal api mv b raw m a hp hm] at hacc
        simp at hacc

theorem bumpCounter_get_self (mv : MoveValidator) (a : AgentId) :
    (bumpCounter mv a).get_illegal_moves_count a =
      mv.get_illegal_moves_count a + 1 := by
  unfold bumpCounter MoveValidator.get_illegal_moves_count
  exact dictGet_dictSet_self ..

theorem bumpCounter_get_ne (mv : MoveValidator) (a a' : AgentId)
    (h : a' ≠ a) :
    (bumpCounter mv a).get_illegal_moves_count a' =
      mv.get_illegal_moves_count a' := by
  unfold bumpCounter MoveValidator.get_illegal_moves_count
  exact dictGet_dictSet_ne _ _ _ _ h

/-- Any validator coming out of `validate_move` is either unchanged (accept)
or the bump of the proposing agent's counter (reject). -/
theorem validate_move_validator_cases {B : Type} (api : ChessApi B)
    (mv : MoveValidator) (b : B) (raw : String) (a : AgentId) :
    (MoveValidator.validate_move api mv b raw a).2 = mv ∨
    (MoveValidator.validate_move api mv b raw a).2 = bumpCounter mv a := by
  cases hp : api.parseSan b (pyStrip raw) with
  | none => right; rw [validate_move_parse_fail api mv b raw a hp]
  | some m =>
      by_cases hm : m ∈ api.legalMoves b
      · left; rw [validate_move_accept_eq api mv b raw m a hp hm]
      · right; rw [validate_move_not_legal api mv b raw m a hp hm]

theorem validate_move_get_mono {B : Type} (api : ChessApi B)
    (mv : MoveValidator) (b : B) (raw : String) (a a' : AgentId) :
    mv.get_illegal_moves_count a' ≤
      (MoveValidator.validate_move api mv b raw a).2.get_illegal_moves_count
        a' := by
  rcases validate_move_validator_cases api mv b raw a with h | h
  · rw [h]
  · rw [h]
    by_cases hne : a' = a
    · subst hne
      rw [bumpCounter_get_self]
      exact Nat.le_succ _
    · rw [bumpCounter_get_ne mv a a' hne]

/-- On rejection the validator is exactly the bump of the proposing agent. -/
theorem validate_move_reject_validator {B : Type} (api : ChessApi B)
    (mv : MoveValidator) (b : B) (raw : String) (a : AgentId)
    (hrej : (MoveValidator.validate_move api mv b raw a).1.1 = false) :
    (MoveValidator.validate_move api mv b raw a) =
      ((false, none), bumpCounter mv a) := by
  cases hp : api.parseSan b (pyStrip raw) with
  | none => exact validate_move_parse_fail api mv b raw a hp
  | some m =>
      by_cases hm : m ∈ api.legalMoves b
      · rw [validate_move_accept_eq api mv b raw m a hp hm] at hrej
        simp at hrej
      · exact validate_move_not_legal api mv b raw m a hp hm

/-! ### Claim C5 -/

/-- C5: a rejection by `validate_move` — whether the stripped string fails to
parse, or parses to a move outside the legal-move set — increments the
proposing agent's illegal-move counter by exactly 1, constructs no `Move`
(returns `(false, none)`), and both rejection causes produce observationally
identical results (equal return value and equal post-state). -/
theorem C5_rejection_uniform {B : Type} (api : ChessApi B)
    (mv : MoveValidator) (b : B) (r1 r2 : String) (m : Move) (a : AgentId)
    (h1 : api.parseSan b (pyStrip r1) = none)
    (h2 : api.parseSan b (pyStrip r2) = some m)
    (h3 : m ∉ api.legalMoves b) :
    MoveValidator.validate_move api mv b r1 a =
      MoveValidator.validate_move api mv b r2 a ∧
    (MoveValidator.validate_move api mv b r1 a).1 = (false, none) ∧
    (MoveValidator.validate_move api mv b r1 a).2.get_illegal_moves_count a
      = mv.get_illegal_moves_count a + 1 := by
  rw [validate_move_parse_fail api mv b r1 a h1,
    validate_move_not_legal api mv b r2 m a h2 h3]
  exact ⟨rfl, rfl, bumpCounter_get_self mv a⟩

/-- C5 witness: on `unitApi`, the unparsable proposal `"xx"` and the
parsable-but-illegal proposal `"Qh5"` give identical rejections, each
bumping the counter from 0 to 1. -/
theorem C5_rejection_uniform_witness :
    MoveValidator.validate_move unitApi ⟨[]⟩ () "xx" "modelA" =
      MoveValidator.validate_move unitApi ⟨[]⟩ () "Qh5" "modelA" ∧
    (MoveValidator.validate_move unitApi ⟨[]⟩ () "xx" "modelA").1 =
      (false, none) ∧
    (MoveValidator.validate_move unitApi ⟨[]⟩ ()
        "xx" "modelA").2.get_illegal_moves_count "modelA" =
      (MoveValidator.mk []).get_illegal_moves_count "modelA" + 1 :=
  C5_rejection_uniform unitApi ⟨[]⟩ () "xx" "Qh5" ⟨"0000"⟩ "modelA"
    (by decide) (by decide) (by decide)

/-! ### Claim C6 -/

/-- C6: when `validate_move` accepts, the returned `Move` is a member of the
position's legal-move set and the validator — hence every agent's counter,
in particular a prior nonzero count — is left exactly unchanged. -/
theorem C6_accept_legal_counter_unchanged {B : Type} (api : ChessApi B)
    (mv : MoveValidator) (b : B) (raw : String) (a : AgentId)
    (hacc : (MoveValidator.validate_move api mv b raw a).1.1 = true) :
    ∃ m, (MoveValidator.validate_move api mv b raw a).1.2 = some m ∧
      m ∈ api.legalMoves b ∧
      (MoveValidator.validate_move api mv b raw a).2 = mv ∧
      ∀ a' : AgentId,
        (MoveValidator.validate_move api mv b raw a).2.get_illegal_moves_count
            a' = mv.get_illegal_moves_count a' := by
  obtain ⟨m, _, hmem, heq⟩ := validate_move_accept_shape api mv b raw a hacc
  exact ⟨m, by rw [heq], hmem, by rw [heq], fun a' => by rw [heq]⟩

/-- C6 witness: accepting `"e4"` on `unitApi` with a prior nonzero count (2)
returns the legal move `e2e4` and leaves the counter at 2. -/
theorem C6_accept_witness :
    ∃ m, (MoveValidator.validate_move unitApi ⟨[("modelA", 2)]⟩ ()
        "e4" "modelA").1.2 = some m ∧
      m ∈ unitApi.legalMoves () ∧
      (MoveValidator.validate_move unitApi ⟨[("modelA", 2)]⟩ ()
          "e4" "modelA").2 = ⟨[("modelA", 2)]⟩ ∧
      ∀ a' : AgentId,
        (MoveValidator.validate_move unitApi ⟨[("modelA", 2)]⟩ ()
            "e4" "modelA").2.get_illegal_moves_count a' =
          (MoveValidator.mk [("modelA", 2)]).get_illegal_moves_count a' :=
  C6_accept_legal_counter_unchanged unitApi ⟨[("modelA", 2)]⟩ () "e4"
    "modelA" (by decide)

/-! ### Claim C9 -/

/-- C9: `get_illegal_moves_count` returns the stored count with default 0 for
a never-initialized identity (not an error), and is embedded as a pure
function (a dict read mutates nothing); the only counter mutations are
`validate_move` on a rejection — which touches only the proposing agent's
entry — and `reset_counter`, which sets the named agent's count to 0.
Acceptance leaves the validator untouched. -/
theorem C9_counter_interface :
    (∀ a : AgentId, (MoveValidator.mk []).get_illegal_moves_count a = 0) ∧
    (∀ (mv : MoveValidator) (a : AgentId),
        (mv.reset_counter a).get_illegal_moves_count a = 0) ∧
    (∀ {B : Type} (api : ChessApi B) (mv : MoveValidator) (b : B)
        (raw : String) (a : AgentId),
        (MoveValidator.validate_move api mv b raw a).1.1 = true →
        (MoveValidator.validate_move api mv b raw a).2 = mv) ∧
    (∀ {B : Type} (api : ChessApi B) (mv : MoveValidator) (b : B)
        (raw : String) (a a' : AgentId), a' ≠ a →
        (MoveValidator.validate_move api mv b raw
            a).2.get_illegal_moves_count a' =
          mv.get_illegal_moves_count a') := by
  refine ⟨fun a => rfl, fun mv a => ?_, ?_, ?_⟩
  · unfold MoveValidator.reset_counter MoveValidator.get_illegal_moves_count
    exact dictGet_dictSet_self ..
  · intro B api mv b raw a hacc
    obtain ⟨m, _, _, heq⟩ := validate_move_accept_shape api mv b raw a hacc
    rw [heq]
  · intro B api mv b raw a a' hne
    rcases validate_move_validator_cases api mv b raw a with h | h
    · rw [h]
    · rw [h, bumpCounter_get_ne mv a a' hne]

/-- C9 witness: a never-initialized identity reads as 0; reset zeroes an
entry; an accepted move leaves the validator unchanged; a rejection leaves
other identities' counts unchanged. -/
theorem C9_counter_interface_witness :
    (MoveValidator.mk []).get_illegal_moves_count "ghost" = 0 ∧
    ((MoveValidator.mk [("modelA", 2)]).reset_counter
        "modelA").get_illegal_moves_count "modelA" = 0 ∧
    (MoveValidator.validate_move unitApi ⟨[]⟩ () "e4" "modelA").2 =
      ⟨[]⟩ ∧
    (MoveValidator.validate_move unitApi ⟨[("modelB", 1)]⟩ () "xx"
        "modelA").2.get_illegal_moves_count "modelB" =
      (MoveValidator.mk [("modelB", 1)]).get_illegal_moves_count "modelB" :=
  ⟨C9_counter_interface.1 "ghost",
   C9_counter_interface.2.1 ⟨[("modelA", 2)]⟩ "modelA",
   C9_counter_interface.2.2.1 unitApi ⟨[]⟩ () "e4" "modelA" (by decide),
   C9_counter_interface.2.2.2 unitApi ⟨[("modelB", 1)]⟩ () "xx" "modelA"
     "modelB" (by decide)⟩

/-! ### Turn-controller step lemmas, `play_llm_vs_engine` loop body -/

theorem engineStep_llm_reject_brk {B : Type} (api : ChessApi B)
    (llmName : AgentId) (lpw : Bool) (llmSrc : Nat → LLMOutcome)
    (engSrc : Nat → Option Move) (s : EngineGameState B)
    (hturn : isLlmTurn api lpw s.board = true)
    (hrej : (MoveValidator.validate_move api s.validator s.board
        (llmGetMove (llmSrc s.llmReq)) llmName).1.1 = false)
    (hcnt : 3 ≤ (bumpCounter s.validator
        llmName).get_illegal_moves_count llmName) :
    engineStep api llmName lpw llmSrc engSrc s = .brk
      { s with
        validator := bumpCounter s.validator llmName
        llmReq := s.llmReq + 1
        lastIsLlmTurn := true
        result := some .engine_won_illegal_moves } := by
  have hval := validate_move_reject_validator api s.validator s.board
    (llmGetMove (llmSrc s.llmReq)) llmName hrej
  unfold engineStep
  rw [hturn, hval]
  simp [hcnt]

theorem engineStep_llm_reject_cont {B : Type} (api : ChessApi B)
    (llmName : AgentId) (lpw : Bool) (llmSrc : Nat → LLMOutcome)
    (engSrc : Nat → Option Move) (s : EngineGameState B)
    (hturn : isLlmTurn api lpw s.board = true)
    (hrej : (MoveValidator.validate_move api s.validator s.board
        (llmGetMove (llmSrc s.llmReq)) llmName).1.1 = false)
    (hcnt : (bumpCounter s.validator
        llmName).get_illegal_moves_count llmName < 3) :
    engineStep api llmName lpw llmSrc engSrc s = .cont
      { s with
        validator := bumpCounter s.validator llmName
        llmReq := s.llmReq + 1
        lastIsLlmTurn := true } := by
  have hval := validate_move_reject_validator api s.validator s.board
    (llmGetMove (llmSrc s.llmReq)) llmName hrej
  unfold engineStep
  rw [hturn, hval]
  simp [Nat.not_le_of_lt hcnt]

theorem engineStep_llm_accept {B : Type} (api : ChessApi B)
    (llmName : AgentId) (lpw : Bool) (llmSrc : Nat → LLMOutcome)
    (engSrc : Nat → Option Move) (s : EngineGameState B) (m : Move)
    (hturn : isLlmTurn api lpw s.board = true)
    (hval : MoveValidator.validate_move api s.validator s.board
        (llmGetMove (llmSrc s.llmReq)) llmName = ((true, some m), s.validator)) :
    engineStep api llmName lpw llmSrc engSrc s = .cont
      { s with
        llmReq := s.llmReq + 1
        lastIsLlmTurn := true
        board := api.push s.board m
        moves := s.moves ++ [m] } := by
  unfold engineStep
  rw [hturn, hval]
  simp

theorem engineStep_eng_fail {B : Type} (api : ChessApi B)
    (llmName : AgentId) (lpw : Bool) (llmSrc : Nat → LLMOutcome)
    (engSrc : Nat → Option Move) (s : EngineGameState B)
    (hturn : isLlmTurn api lpw s.board = false)
    (heng : engSrc s.engReq = none) :
    engineStep api llmName lpw llmSrc engSrc s = .brk
      { s with
        result := some .error_engine_move
        engReq := s.engReq + 1
        lastIsLlmTurn := false } := by
  unfold engineStep
  rw [hturn, heng]
  simp

theorem engineStep_eng_move {B : Type} (api : ChessApi B)
    (llmName : AgentId) (lpw : Bool) (llmSrc : Nat → LLMOutcome)
    (engSrc : Nat → Option Move) (s : EngineGameState B) (m : Move)
    (hturn : isLlmTurn api lpw s.board = false)
    (heng : engSrc s.engReq = some m) :
    engineStep api llmName lpw llmSrc engSrc s = .cont
      { s with
        board := api.push s.board m
        moves := s.moves ++ [m]
        engReq := s.engReq + 1
        lastIsLlmTurn := false } := by
  unfold engineStep
  rw [hturn, heng]
  simp

/-! ### Turn-controller step lemmas, `play_llm_vs_llm` loop body -/

theorem llmStep_white_reject_brk {B : Type} (api : ChessApi B)
    (wName bName : AgentId) (wSrc bSrc : Nat → LLMOutcome)
    (s : LLMGameState B)
    (hturn : api.turn s.board = true)
    (hrej : (MoveValidator.validate_move api s.validator s.board
        (llmGetMove (wSrc s.whiteReq)) wName).1.1 = false)
    (hcnt : 3 ≤ (bumpCounter s.validator
        wName).get_illegal_moves_count wName) :
    llmStep api wName bName wSrc bSrc s = .brk
      { s with
        validator := bumpCounter s.validator wName
        whiteReq := s.whiteReq + 1
        result := some .black_won_illegal_moves } := by
  have hval := validate_move_reject_validator api s.validator s.board
    (llmGetMove (wSrc s.whiteReq)) wName hrej
  unfold llmStep
  rw [hturn, hval]
  simp [hcnt]

theorem llmStep_white_reject_cont {B : Type} (api : ChessApi B)
    (wName bName : AgentId) (wSrc bSrc : Nat → LLMOutcome)
    (s : LLMGameState B)
    (hturn : api.turn s.board = true)
    (hrej : (MoveValidator.validate_move api s.validator s.board
        (llmGetMove (wSrc s.whiteReq)) wName).1.1 = false)
    (hcnt : (bumpCounter s.validator
        wName).get_illegal_moves_count wName < 3) :
    llmStep api wName bName wSrc bSrc s = .cont
      { s with
        validator := bumpCounter s.validator wName
        whiteReq := s.whiteReq + 1 } := by
  have hval := validate_move_reject_validator api s.validator s.board
    (llmGetMove (wSrc s.whiteReq)) wName hrej
  unfold llmStep
  rw [hturn, hval]
  simp [Nat.not_le_of_lt hcnt]

theorem llmStep_white_accept {B : Type} (api : ChessApi B)
    (wName bName : AgentId) (wSrc bSrc : Nat → LLMOutcome)
    (s : LLMGameState B) (m : Move)
    (hturn : api.turn s.board = true)
    (hval : MoveValidator.validate_move api s.validator s.board
        (llmGetMove (wSrc s.whiteReq)) wName = ((true, some m), s.validator)) :
    llmStep api wName bName wSrc bSrc s = .cont
      { s with
        whiteReq := s.whiteReq + 1
        board := api.push s.board m
        moves := s.moves ++ [m] } := by
  unfold llmStep
  rw [hturn, hval]
  simp

theorem llmStep_black_reject_brk {B : Type} (api : ChessApi B)
    (wName bName : AgentId) (wSrc bSrc : Nat → LLMOutcome)
    (s : LLMGameState B)
    (hturn : api.turn s.board = false)
    (hrej : (MoveValidator.validate_move api s.validator s.board
        (llmGetMove (bSrc s.blackReq)) bName).1.1 = false)
    (hcnt : 3 ≤ (bumpCounter s.validator
        bName).get_illegal_moves_count bName) :
    llmStep api wName bName wSrc bSrc s = .brk
      { s with
        validator := bumpCounter s.validator bName
        blackReq := s.blackReq + 1
        result := some .white_won_illegal_moves } := by
  have hval := validate_move_reject_validator api s.validator s.board
    (llmGetMove (bSrc s.blackReq)) bName hrej
  unfold llmStep
  rw [hturn, hval]
  simp [hcnt]

theorem llmStep_black_reject_cont {B : Type} (api : ChessApi B)
    (wName bName : AgentId) (wSrc bSrc : Nat → LLMOutcome)
    (s : LLMGameState B)
    (hturn : api.turn s.board = false)
    (hrej : (MoveValidator.validate_move api s.validator s.board
        (llmGetMove (bSrc s.blackReq)) bName).1.1 = false)
    (hcnt : (bumpCounter s.validator
        bName).get_illegal_moves_count bName < 3) :
    llmStep api wName bName wSrc bSrc s = .cont
      { s with
        validator := bumpCounter s.validator bName
        blackReq := s.blackReq + 1 } := by
  have hval := validate_move_reject_validator api s.validator s.board
    (llmGetMove (bSrc s.blackReq)) bName hrej
  unfold llmStep
  rw [hturn, hval]
  simp [Nat.not_le_of_lt hcnt]

theorem llmStep_black_accept {B : Type} (api : ChessApi B)
    (wName bName : AgentId) (wSrc bSrc : Nat → LLMOutcome)
    (s : LLMGameState B) (m : Move)
    (hturn : api.turn s.board = false)
    (hval : MoveValidator.validate_move api s.validator s.board
        (llmGetMove (bSrc s.blackReq)) bName = ((true, some m), s.validator)) :
    llmStep api wName bName wSrc bSrc s = .cont
      { s with
        blackReq := s.blackReq + 1
        board := api.push s.board m
        moves := s.moves ++ [m] } := by
  unfold llmStep
  rw [hturn, hval]
  simp

/-! ### Generic loop reasoning -/

/-- Hoare-style rule for `gameLoop`: an invariant `P` preserved by `cont`
steps, turned into `Q` by `brk` steps and by natural loop exit, yields `Q` at
whatever state the loop returns. -/
theorem gameLoop_post {S : Type} (over : S → Bool) (step : S → LoopStep S)
    (P Q : S → Prop)
    (hcont : ∀ s s', P s → over s = false → step s = .cont s' → P s')
    (hbrk : ∀ s s', P s → over s = false → step s = .brk s' → Q s')
    (hnat : ∀ s, P s → over s = true → Q s) :
    ∀ (fuel : Nat) (s0 sf : S), P s0 →
      gameLoop over step fuel s0 = some sf → Q sf := by
  intro fuel
  induction fuel with
  | zero => intro s0 sf _ h; simp [gameLoop] at h
  | succ n ih =>
      intro s0 sf hP h
      unfold gameLoop at h
      cases hov : over s0 with
      | true =>
          rw [hov] at h
          simp at h
          exact h ▸ hnat s0 hP hov
      | false =>
          rw [hov] at h
          simp at h
          cases hstep : step s0 with
          | brk s' =>
              rw [hstep] at h
              simp at h
              exact h ▸ hbrk s0 s' hP hov hstep
          | cont s' =>
              rw [hstep] at h
              exact ih s' sf (hcont s0 s' hP hov hstep) h

/-- Complete case analysis of one `play_llm_vs_engine` iteration: a `cont`
step keeps the result, touches the counter only by a guarded (< 3) bump of
the LLM's entry, and either leaves the board and move list unchanged
(rejection retry) or pushes exactly one move; a `brk` step leaves board and
move list unchanged and is either the three-strike forfeit (counter bumped
to ≥ 3) or the engine-failure error (counter untouched). -/
theorem engineStep_outcome {B : Type} (api : ChessApi B)
    (llmName : AgentId) (lpw : Bool) (llmSrc : Nat → LLMOutcome)
    (engSrc : Nat → Option Move) (s : EngineGameState B) :
    (∃ s', engineStep api llmName lpw llmSrc engSrc s = .cont s' ∧
      s'.result = s.result ∧
      (s'.validator = s.validator ∨
        (s'.validator = bumpCounter s.validator llmName ∧
          s'.validator.get_illegal_moves_count llmName < 3)) ∧
      ((s'.board = s.board ∧ s'.moves = s.moves) ∨
        (∃ m, s'.board = api.push s.board m ∧
          s'.moves = s.moves ++ [m]))) ∨
    (∃ s', engineStep api llmName lpw llmSrc engSrc s = .brk s' ∧
      s'.board = s.board ∧ s'.moves = s.moves ∧
      ((s'.result = some .engine_won_illegal_moves ∧
          s'.validator = bumpCounter s.validator llmName ∧
          3 ≤ s'.validator.get_illegal_moves_count llmName) ∨
        (s'.result = some .error_engine_move ∧
          s'.validator = s.validator))) := by
  cases hturn : isLlmTurn api lpw s.board with
  | true =>
      cases hrej : (MoveValidator.validate_move api s.validator s.board
          (llmGetMove (llmSrc s.llmReq)) llmName).1.1 with
      | false =>
          by_cases hcnt : 3 ≤ (bumpCounter s.validator
              llmName).get_illegal_moves_count llmName
          · right
            exact ⟨_, engineStep_llm_reject_brk api llmName lpw llmSrc
              engSrc s hturn hrej hcnt, rfl, rfl,
              Or.inl ⟨rfl, rfl, hcnt⟩⟩
          · left
            exact ⟨_, engineStep_llm_reject_cont api llmName lpw llmSrc
              engSrc s hturn hrej (Nat.lt_of_not_le hcnt), rfl,
              Or.inr ⟨rfl, Nat.lt_of_not_le hcnt⟩, Or.inl ⟨rfl, rfl⟩⟩
      | true =>
          obtain ⟨m, _, _, hval⟩ := validate_move_accept_shape api
            s.validator s.board (llmGetMove (llmSrc s.llmReq)) llmName hrej
          left
          exact ⟨_, engineStep_llm_accept api llmName lpw llmSrc engSrc s m
            hturn hval, rfl, Or.inl rfl, Or.inr ⟨m, rfl, rfl⟩⟩
  | false =>
      cases heng : engSrc s.engReq with
      | none =>
          right
          exact ⟨_, engineStep_eng_fail api llmName lpw llmSrc engSrc s
            hturn heng, rfl, rfl, Or.inr ⟨rfl, rfl⟩⟩
      | some m =>
          left
          exact ⟨_, engineStep_eng_move api llmName lpw llmSrc engSrc s m
            hturn heng, rfl, Or.inl rfl, Or.inr ⟨m, rfl, rfl⟩⟩

/-- Complete case analysis of one `play_llm_vs_llm` iteration, analogous to
`engineStep_outcome`, with the two per-agent counters. -/
theorem llmStep_outcome {B : Type} (api : ChessApi B)
    (wName bName : AgentId) (wSrc bSrc : Nat → LLMOutcome)
    (s : LLMGameState B) :
    (∃ s', llmStep api wName bName wSrc bSrc s = .cont s' ∧
      s'.result = s.result ∧
      (s'.validator = s.validator ∨
        (s'.validator = bumpCounter s.validator wName ∧
          s'.validator.get_illegal_moves_count wName < 3) ∨
        (s'.validator = bumpCounter s.validator bName ∧
          s'.validator.get_illegal_moves_count bName < 3)) ∧
      ((s'.board = s.board ∧ s'.moves = s.moves) ∨
        (∃ m, s'.board = api.push s.board m ∧
          s'.moves = s.moves ++ [m]))) ∨
    (∃ s', llmStep api wName bName wSrc bSrc s = .brk s' ∧
      s'.board = s.board ∧ s'.moves = s.moves ∧
      ((s'.result = some .black_won_illegal_moves ∧
          s'.validator = bumpCounter s.validator wName ∧
          3 ≤ s'.validator.get_illegal_moves_count wName) ∨
        (s'.result = some .white_won_illegal_moves ∧
          s'.validator = bumpCounter s.validator bName ∧
          3 ≤ s'.validator.get_illegal_moves_count bName))) := by
  cases hturn : api.turn s.board with
  | true =>
      cases hrej : (MoveValidator.validate_move api s.validator s.board
          (llmGetMove (wSrc s.whiteReq)) wName).1.1 with
      | false =>
          by_cases hcnt : 3 ≤ (bumpCounter s.validator
              wName).get_illegal_moves_count wName
          · right
            exact ⟨_, llmStep_white_reject_brk api wName bName wSrc bSrc s
              hturn hrej hcnt, rfl, rfl, Or.inl ⟨rfl, rfl, hcnt⟩⟩
          · left
            exact ⟨_, llmStep_white_reject_cont api wName bName wSrc bSrc s
              hturn hrej (Nat.lt_of_not_le hcnt), rfl,
              Or.inr (Or.inl ⟨rfl, Nat.lt_of_not_le hcnt⟩),
              Or.inl ⟨rfl, rfl⟩⟩
      | true =>
          obtain ⟨m, _, _, hval⟩ := validate_move_accept_shape api
            s.validator s.board (llmGetMove (wSrc s.whiteReq)) wName hrej
          left
          exact ⟨_, llmStep_white_accept api wName bName wSrc bSrc s m
            hturn hval, rfl, Or.inl rfl, Or.inr ⟨m, rfl, rfl⟩⟩
  | false =>
      cases hrej : (MoveValidator.validate_move api s.validator s.board
          (llmGetMove (bSrc s.blackReq)) bName).1.1 with
      | false =>
          by_cases hcnt : 3 ≤ (bumpCounter s.validator
              bName).get_illegal_moves_count bName
          · right
            exact ⟨_, llmStep_black_reject_brk api wName bName wSrc bSrc s
              hturn hrej hcnt, rfl, rfl, Or.inr ⟨rfl, rfl, hcnt⟩⟩
          · left
            exact ⟨_, llmStep_black_reject_cont api wName bName wSrc bSrc s
              hturn hrej (Nat.lt_of_not_le hcnt), rfl,
              Or.inr (Or.inr ⟨rfl, Nat.lt_of_not_le hcnt⟩),
              Or.inl ⟨rfl, rfl⟩⟩
      | true =>
          obtain ⟨m, _, _, hval⟩ := validate_move_accept_shape api
            s.validator s.board (llmGetMove (bSrc s.blackReq)) bName hrej
          left
          exact ⟨_, llmStep_black_accept api wName bName wSrc bSrc s m
            hturn hval, rfl, Or.inl rfl, Or.inr ⟨m, rfl, rfl⟩⟩

/-! ### Claim C7 -/

/-- C7: on any iteration of either game loop where the proposal is rejected
and the proposing agent's (post-increment) count is still below 3, the turn
does not advance: the step `continue`s with the board, the record's move
list, the result, and the side to move all unchanged, so the same side is
re-prompted on the next iteration. -/
theorem C7_rejection_no_advance :
    (∀ {B : Type} (api : ChessApi B) (llmName : AgentId) (lpw : Bool)
        (llmSrc : Nat → LLMOutcome) (engSrc : Nat → Option Move)
        (s : EngineGameState B),
      isLlmTurn api lpw s.board = true →
      (MoveValidator.validate_move api s.validator s.board
          (llmGetMove (llmSrc s.llmReq)) llmName).1.1 = false →
      (bumpCounter s.validator llmName).get_illegal_moves_count llmName
          < 3 →
      ∃ s', engineStep api llmName lpw llmSrc engSrc s = .cont s' ∧
        s'.board = s.board ∧ s'.moves = s.moves ∧ s'.result = s.result ∧
        isLlmTurn api lpw s'.board = isLlmTurn api lpw s.board ∧
        api.turn s'.board = api.turn s.board) ∧
    (∀ {B : Type} (api : ChessApi B) (wName bName : AgentId)
        (wSrc bSrc : Nat → LLMOutcome) (s : LLMGameState B),
      api.turn s.board = true →
      (MoveValidator.validate_move api s.validator s.board
          (llmGetMove (wSrc s.whiteReq)) wName).1.1 = false →
      (bumpCounter s.validator wName).get_illegal_moves_count wName < 3 →
      ∃ s', llmStep api wName bName wSrc bSrc s = .cont s' ∧
        s'.board = s.board ∧ s'.moves = s.moves ∧ s'.result = s.result ∧
        api.turn s'.board = api.turn s.board) ∧
    (∀ {B : Type} (api : ChessApi B) (wName bName : AgentId)
        (wSrc bSrc : Nat → LLMOutcome) (s : LLMGameState B),
      api.turn s.board = false →
      (MoveValidator.validate_move api s.validator s.board
          (llmGetMove (bSrc s.blackReq)) bName).1.1 = false →
      (bumpCounter s.validator bName).get_illegal_moves_count bName < 3 →
      ∃ s', llmStep api wName bName wSrc bSrc s = .cont s' ∧
        s'.board = s.board ∧ s'.moves = s.moves ∧ s'.result = s.result ∧
        api.turn s'.board = api.turn s.board) := by
  refine ⟨?_, ?_, ?_⟩
  · intro B api llmName lpw llmSrc engSrc s hturn hrej hcnt
    exact ⟨_, engineStep_llm_reject_cont api llmName lpw llmSrc engSrc s
      hturn hrej hcnt, rfl, rfl, rfl, rfl, rfl⟩
  · intro B api wName bName wSrc bSrc s hturn hrej hcnt
    exact ⟨_, llmStep_white_reject_cont api wName bName wSrc bSrc s
      hturn hrej hcnt, rfl, rfl, rfl, rfl⟩
  · intro B api wName bName wSrc bSrc s hturn hrej hcnt
    exact ⟨_, llmStep_black_reject_cont api wName bName wSrc bSrc s
      hturn hrej hcnt, rfl, rfl, rfl, rfl⟩

/-- C7 witness: concrete rejected proposals (count going 0 to 1) on the
`Unit` boards leave board, moves, result and side to move unchanged in all
three loop bodies. -/
theorem C7_rejection_no_advance_witness :
    (∃ s', engineStep unitApi "modelA" true (fun _ => .success "xx")
        (fun _ => none) engS0 = .cont s' ∧
      s'.board = engS0.board ∧ s'.moves = engS0.moves ∧
      s'.result = engS0.result ∧
      isLlmTurn unitApi true s'.board = isLlmTurn unitApi true engS0.board ∧
      unitApi.turn s'.board = unitApi.turn engS0.board) ∧
    (∃ s', llmStep unitApi "w" "b" (fun _ => .success "xx")
        (fun _ => .success "e4") llmS0 = .cont s' ∧
      s'.board = llmS0.board ∧ s'.moves = llmS0.moves ∧
      s'.result = llmS0.result ∧
      unitApi.turn s'.board = unitApi.turn llmS0.board) ∧
    (∃ s', llmStep unitApiB "w" "b" (fun _ => .success "e4")
        (fun _ => .success "xx") llmS0 = .cont s' ∧
      s'.board = llmS0.board ∧ s'.moves = llmS0.moves ∧
      s'.result = llmS0.result ∧
      unitApiB.turn s'.board = unitApiB.turn llmS0.board) :=
  ⟨C7_rejection_no_advance.1 unitApi "modelA" true (fun _ => .success "xx")
      (fun _ => none) engS0 (by decide) (by decide) (by decide),
   C7_rejection_no_advance.2.1 unitApi "w" "b" (fun _ => .success "xx")
      (fun _ => .success "e4") llmS0 (by decide) (by decide) (by decide),
   C7_rejection_no_advance.2.2 unitApiB "w" "b" (fun _ => .success "e4")
      (fun _ => .success "xx") llmS0 (by decide) (by decide) (by decide)⟩

/-! ### Claim C2 -/

/-- C2 counterexample: with the LLM-backed source failing (the completion
call raises), the loop body does *not* terminate the game with any distinct
source-failure result — it `continue`s with the result still unset — and the
LLM's illegal-move counter *is* incremented (to 1).  This refutes the claim
for the LLM-backed source at a concrete input. -/
theorem C2_llm_failure_counterexample :
    LoopStep.isBrk (engineStep unitApi "modelA" true (fun _ => .failure)
        (fun _ => none) engS0) = false ∧
    (engineStep unitApi "modelA" true (fun _ => .failure)
        (fun _ => none) engS0).state.result = none ∧
    (engineStep unitApi "modelA" true (fun _ => .failure)
        (fun _ => none) engS0).state.validator.get_illegal_moves_count
      "modelA" = 1 := by
  decide

/-- C2 amended: only the *engine*-backed source failure terminates the game
immediately with the distinct `error_engine_move` result, leaving every
illegal-move counter untouched; an *LLM*-backed source failure is mapped to
the sentinel proposal `"ERROR"`, which fails validation and increments the
LLM's illegal-move counter by exactly 1 — the game does not get a distinct
source-failure result from it (it either continues, or ends in the
three-strike forfeit). -/
theorem C2_source_failure_split :
    (∀ {B : Type} (api : ChessApi B) (llmName : AgentId) (lpw : Bool)
        (llmSrc : Nat → LLMOutcome) (engSrc : Nat → Option Move)
        (s : EngineGameState B),
      isLlmTurn api lpw s.board = false →
      engSrc s.engReq = none →
      engineStep api llmName lpw llmSrc engSrc s = .brk
        { s with
          result := some .error_engine_move
          engReq := s.engReq + 1
          lastIsLlmTurn := false }) ∧
    (∀ {B : Type} (api : ChessApi B) (llmName : AgentId) (lpw : Bool)
        (llmSrc : Nat → LLMOutcome) (engSrc : Nat → Option Move)
        (s : EngineGameState B),
      isLlmTurn api lpw s.board = true →
      llmSrc s.llmReq = .failure →
      api.parseSan s.board "ERROR" = none →
      (engineStep api llmName lpw llmSrc engSrc
          s).state.validator.get_illegal_moves_count llmName =
        s.validator.get_illegal_moves_count llmName + 1 ∧
      ((engineStep api llmName lpw llmSrc engSrc s).state.result = s.result ∨
        (engineStep api llmName lpw llmSrc engSrc s).state.result =
          some .engine_won_illegal_moves)) := by
  constructor
  · intro B api llmName lpw llmSrc engSrc s hturn heng
    exact engineStep_eng_fail api llmName lpw llmSrc engSrc s hturn heng
  · intro B api llmName lpw llmSrc engSrc s hturn hfail hparse
    have hmove : llmGetMove (llmSrc s.llmReq) = "ERROR" := by
      rw [hfail]; rfl
    have hstrip : pyStrip "ERROR" = "ERROR" := rfl
    have hparse' : api.parseSan s.board
        (pyStrip (llmGetMove (llmSrc s.llmReq))) = none := by
      rw [hmove, hstrip, hparse]
    have hrej : (MoveValidator.validate_move api s.validator s.board
        (llmGetMove (llmSrc s.llmReq)) llmName).1.1 = false := by
      rw [validate_move_parse_fail api s.validator s.board _ llmName hparse']
    by_cases hcnt : 3 ≤ (bumpCounter s.validator
        llmName).get_illegal_moves_count llmName
    · rw [engineStep_llm_reject_brk api llmName lpw llmSrc engSrc s hturn
        hrej hcnt]
      exact ⟨bumpCounter_get_self s.validator llmName, Or.inr rfl⟩
    · rw [engineStep_llm_reject_cont api llmName lpw llmSrc engSrc s hturn
        hrej (Nat.lt_of_not_le hcnt)]
      exact ⟨bumpCounter_get_self s.validator llmName, Or.inl rfl⟩

/-- C2 witness for the amended claim: a failing engine source breaks out with
`error_engine_move` and no counter change; a failing LLM source bumps the
counter from 0 to 1 without terminating. -/
theorem C2_source_failure_split_witness :
    (engineStep unitApiB "modelA" true (fun _ => .failure) (fun _ => none)
        engS0 = .brk
      { engS0 with
        result := some .error_engine_move
        engReq := engS0.engReq + 1
        lastIsLlmTurn := false }) ∧
    ((engineStep unitApi "modelA" true (fun _ => .failure) (fun _ => none)
        engS0).state.validator.get_illegal_moves_count "modelA" =
      engS0.validator.get_illegal_moves_count "modelA" + 1 ∧
    ((engineStep unitApi "modelA" true (fun _ => .failure) (fun _ => none)
        engS0).state.result = engS0.result ∨
      (engineStep unitApi "modelA" true (fun _ => .failure) (fun _ => none)
        engS0).state.result = some .engine_won_illegal_moves)) :=
  ⟨C2_source_failure_split.1 unitApiB "modelA" true (fun _ => .failure)
      (fun _ => none) engS0 (by decide) rfl,
   C2_source_failure_split.2 unitApi "modelA" true (fun _ => .failure)
      (fun _ => none) engS0 (by decide) rfl (by decide)⟩

/-! ### Classifier lemmas -/

theorem classifyEngine_result_none {B : Type} (api : ChessApi B)
    (s : EngineGameState B) (h : s.result = none) :
    (classifyEngine api s).result =
      classifyResultEngine api s.lastIsLlmTurn s.board := by
  unfold classifyEngine
  rw [h]
  rfl

theorem classifyLLM_result_none {B : Type} (api : ChessApi B)
    (s : LLMGameState B) (h : s.result = none) :
    (classifyLLM api s).result = classifyResultLLM api s.board := by
  unfold classifyLLM
  rw [h]
  rfl

/-- A `cont` step of the engine loop that appended a move: the python local
`is_llm_turn` recorded in the state is the pre-push turn test (the mover),
the new board is the push of that move, and the result is untouched. -/
theorem engineStep_cont_push {B : Type} (api : ChessApi B)
    (llmName : AgentId) (lpw : Bool) (llmSrc : Nat → LLMOutcome)
    (engSrc : Nat → Option Move) (s s' : EngineGameState B) (m : Move)
    (hstep : engineStep api llmName lpw llmSrc engSrc s = .cont s')
    (hmv : s'.moves = s.moves ++ [m]) :
    s'.lastIsLlmTurn = isLlmTurn api lpw s.board ∧
    s'.board = api.push s.board m ∧ s'.result = s.result := by
  cases hturn : isLlmTurn api lpw s.board with
  | true =>
      cases hrej : (MoveValidator.validate_move api s.validator s.board
          (llmGetMove (llmSrc s.llmReq)) llmName).1.1 with
      | false =>
          by_cases hcnt : 3 ≤ (bumpCounter s.validator
              llmName).get_illegal_moves_count llmName
          · rw [engineStep_llm_reject_brk api llmName lpw llmSrc engSrc s
              hturn hrej hcnt] at hstep
            simp at hstep
          · rw [engineStep_llm_reject_cont api llmName lpw llmSrc engSrc s
              hturn hrej (Nat.lt_of_not_le hcnt)] at hstep
            cases hstep
            simp at hmv
      | true =>
          obtain ⟨m', _, _, hval⟩ := validate_move_accept_shape api
            s.validator s.board (llmGetMove (llmSrc s.llmReq)) llmName hrej
          rw [engineStep_llm_accept api llmName lpw llmSrc engSrc s m'
            hturn hval] at hstep
          cases hstep
          simp at hmv
          subst hmv
          exact ⟨rfl, rfl, rfl⟩
  | false =>
      cases heng : engSrc s.engReq with
      | none =>
          rw [engineStep_eng_fail api llmName lpw llmSrc engSrc s hturn
            heng] at hstep
          simp at hstep
      | some m' =>
          rw [engineStep_eng_move api llmName lpw llmSrc engSrc s m' hturn
            heng] at hstep
          cases hstep
          simp at hmv
          subst hmv
          exact ⟨rfl, rfl, rfl⟩

/-- A `cont` step of the LLM-vs-LLM loop that appended a move: the new board
is the push of that move and the result is untouched. -/
theorem llmStep_cont_push {B : Type} (api : ChessApi B)
    (wName bName : AgentId) (wSrc bSrc : Nat → LLMOutcome)
    (s s' : LLMGameState B) (m : Move)
    (hstep : llmStep api wName bName wSrc bSrc s = .cont s')
    (hmv : s'.moves = s.moves ++ [m]) :
    s'.board = api.push s.board m ∧ s'.result = s.result := by
  cases hturn : api.turn s.board with
  | true =>
      cases hrej : (MoveValidator.validate_move api s.validator s.board
          (llmGetMove (wSrc s.whiteReq)) wName).1.1 with
      | false =>
          by_cases hcnt : 3 ≤ (bumpCounter s.validator
              wName).get_illegal_moves_count wName
          · rw [llmStep_white_reject_brk api wName bName wSrc bSrc s hturn
              hrej hcnt] at hstep
            simp at hstep
          · rw [llmStep_white_reject_cont api wName bName wSrc bSrc s hturn
              hrej (Nat.lt_of_not_le hcnt)] at hstep
            cases hstep
            simp at hmv
      | true =>
          obtain ⟨m', _, _, hval⟩ := validate_move_accept_shape api
            s.validator s.board (llmGetMove (wSrc s.whiteReq)) wName hrej
          rw [llmStep_white_accept api wName bName wSrc bSrc s m' hturn
            hval] at hstep
          cases hstep
          simp at hmv
          subst hmv
          exact ⟨rfl, rfl⟩
  | false =>
      cases hrej : (MoveValidator.validate_move api s.validator s.board
          (llmGetMove (bSrc s.blackReq)) bName).1.1 with
      | false =>
          by_cases hcnt : 3 ≤ (bumpCounter s.validator
              bName).get_illegal_moves_count bName
          · rw [llmStep_black_reject_brk api wName bName wSrc bSrc s hturn
              hrej hcnt] at hstep
            simp at hstep
          · rw [llmStep_black_reject_cont api wName bName wSrc bSrc s hturn
              hrej (Nat.lt_of_not_le hcnt)] at hstep
            cases hstep
            simp at hmv
      | true =>
          obtain ⟨m', _, _, hval⟩ := validate_move_accept_shape api
            s.validator s.board (llmGetMove (bSrc s.blackReq)) bName hrej
          rw [llmStep_black_accept api wName bName wSrc bSrc s m' hturn
            hval] at hstep
          cases hstep
          simp at hmv
          subst hmv
          exact ⟨rfl, rfl⟩

/-! ### Claim C4 -/

/-- C4: terminal results are classified in the fixed precedence order
checkmate > stalemate > insufficient material > fifty-move > repetition, in
both loops' classifiers; and on checkmate the recorded winner is the side
that just moved: in the engine loop via the `is_llm_turn` flag captured
before the push (before the side-to-move pointer advances), and in the LLM
loop — given that pushing flips the side to move, as the real board does —
the winner is the side that was to move before the final push. -/
theorem C4_precedence_and_mover :
    (∀ {B : Type} (api : ChessApi B) (lastLlm : Bool) (b : B),
      (api.isCheckmate b = true →
        classifyResultEngine api lastLlm b =
          some (if lastLlm then .llm_won else .engine_won)) ∧
      (api.isCheckmate b = false → api.isStalemate b = true →
        classifyResultEngine api lastLlm b = some .draw_stalemate) ∧
      (api.isCheckmate b = false → api.isStalemate b = false →
        api.isInsufficientMaterial b = true →
        classifyResultEngine api lastLlm b =
          some .draw_insufficient_material) ∧
      (api.isCheckmate b = false → api.isStalemate b = false →
        api.isInsufficientMaterial b = false → api.isFiftyMoves b = true →
        classifyResultEngine api lastLlm b = some .draw_fifty_moves) ∧
      (api.isCheckmate b = false → api.isStalemate b = false →
        api.isInsufficientMaterial b = false → api.isFiftyMoves b = false →
        api.isRepetition b = true →
        classifyResultEngine api lastLlm b = some .draw_repetition)) ∧
    (∀ {B : Type} (api : ChessApi B) (b : B),
      (api.isCheckmate b = true →
        classifyResultLLM api b =
          some (if api.turn b then .black_won else .white_won)) ∧
      (api.isCheckmate b = false → api.isStalemate b = true →
        classifyResultLLM api b = some .draw_stalemate) ∧
      (api.isCheckmate b = false → api.isStalemate b = false →
        api.isInsufficientMaterial b = true →
        classifyResultLLM api b = some .draw_insufficient_material) ∧
      (api.isCheckmate b = false → api.isStalemate b = false →
        api.isInsufficientMaterial b = false → api.isFiftyMoves b = true →
        classifyResultLLM api b = some .draw_fifty_moves) ∧
      (api.isCheckmate b = false → api.isStalemate b = false →
        api.isInsufficientMaterial b = false → api.isFiftyMoves b = false →
        api.isRepetition b = true →
        classifyResultLLM api b = some .draw_repetition)) ∧
    (∀ {B : Type} (api : ChessApi B) (llmName : AgentId) (lpw : Bool)
        (llmSrc : Nat → LLMOutcome) (engSrc : Nat → Option Move)
        (s s' : EngineGameState B) (m : Move),
      engineStep api llmName lpw llmSrc engSrc s = .cont s' →
      s'.moves = s.moves ++ [m] →
      s'.lastIsLlmTurn = isLlmTurn api lpw s.board) ∧
    (∀ {B : Type} (api : ChessApi B) (llmName : AgentId) (lpw : Bool)
        (llmSrc : Nat → LLMOutcome) (engSrc : Nat → Option Move)
        (s s' : EngineGameState B) (m : Move),
      engineStep api llmName lpw llmSrc engSrc s = .cont s' →
      s'.moves = s.moves ++ [m] → s.result = none →
      api.isCheckmate s'.board = true →
      (classifyEngine api s').result =
        some (if isLlmTurn api lpw s.board then .llm_won
          else .engine_won)) ∧
    (∀ {B : Type} (api : ChessApi B) (wName bName : AgentId)
        (wSrc bSrc : Nat → LLMOutcome) (s s' : LLMGameState B) (m : Move),
      llmStep api wName bName wSrc bSrc s = .cont s' →
      s'.moves = s.moves ++ [m] → s.result = none →
      api.turn (api.push s.board m) = !api.turn s.board →
      api.isCheckmate s'.board = true →
      (classifyLLM api s').result =
        some (if api.turn s.board then .white_won else .black_won)) := by
  refine ⟨?_, ?_, ?_, ?_, ?_⟩
  · intro B api lastLlm b
    refine ⟨fun h1 => ?_, fun h1 h2 => ?_, fun h1 h2 h3 => ?_,
      fun h1 h2 h3 h4 => ?_, fun h1 h2 h3 h4 h5 => ?_⟩ <;>
      simp_all [classifyResultEngine]
  · intro B api b
    refine ⟨fun h1 => ?_, fun h1 h2 => ?_, fun h1 h2 h3 => ?_,
      fun h1 h2 h3 h4 => ?_, fun h1 h2 h3 h4 h5 => ?_⟩ <;>
      simp_all [classifyResultLLM]
  · intro B api llmName lpw llmSrc engSrc s s' m hstep hmv
    exact (engineStep_cont_push api llmName lpw llmSrc engSrc s s' m hstep
      hmv).1
  · intro B api llmName lpw llmSrc engSrc s s' m hstep hmv hres hcm
    obtain ⟨hlast, _, hres'⟩ := engineStep_cont_push api llmName lpw llmSrc
      engSrc s s' m hstep hmv
    rw [classifyEngine_result_none api s' (hres' ▸ hres), hlast]
    unfold classifyResultEngine
    rw [hcm]
    rfl
  · intro B api wName bName wSrc bSrc s s' m hstep hmv hres hflip hcm
    obtain ⟨hboard, hres'⟩ := llmStep_cont_push api wName bName wSrc bSrc
      s s' m hstep hmv
    rw [classifyLLM_result_none api s' (hres' ▸ hres)]
    unfold classifyResultLLM
    rw [hcm]
    have hturn' : api.turn s'.board = !api.turn s.board := by
      rw [hboard, hflip]
    rw [hturn']
    cases api.turn s.board <;> rfl

/-- C4 witness: on the scripted `Nat` board, a checkmate position is
classified as a win for the mover in both loops (the LLM that pushed, resp.
White, who was to move before the final push). -/
theorem C4_precedence_and_mover_witness :
    classifyResultEngine natApi true 1 =
      some (if true then GameResult.llm_won else GameResult.engine_won) ∧
    (classifyEngine natApi engN1).result =
      some (if isLlmTurn natApi true engN0.board then GameResult.llm_won
        else GameResult.engine_won) ∧
    (classifyLLM natApi llmN1).result =
      some (if natApi.turn llmN0.board then GameResult.white_won
        else GameResult.black_won) :=
  ⟨(C4_precedence_and_mover.1 natApi true 1).1 (by decide),
   C4_precedence_and_mover.2.2.2.1 natApi "modelA" true
     (fun _ => .success "Qh7") (fun _ => none) engN0 engN1 ⟨"h5h7"⟩
     (by decide) (by decide) rfl (by decide),
   C4_precedence_and_mover.2.2.2.2 natApi "w" "b"
     (fun _ => .success "Qh7") (fun _ => .success "Qh7") llmN0 llmN1
     ⟨"h5h7"⟩ (by decide) (by decide) rfl (by decide) (by decide)⟩

/-! ### Helper lemmas for run-level claims -/

theorem bumpCounter_get_mono (mv : MoveValidator) (a a' : AgentId) :
    mv.get_illegal_moves_count a' ≤
      (bumpCounter mv a).get_illegal_moves_count a' := by
  by_cases h : a' = a
  · subst h
    rw [bumpCounter_get_self]
    exact Nat.le_succ _
  · rw [bumpCounter_get_ne mv a a' h]

theorem bumpCounter_get_le (mv : MoveValidator) (a a' : AgentId) :
    (bumpCounter mv a).get_illegal_moves_count a' ≤
      mv.get_illegal_moves_count a' + 1 := by
  by_cases h : a' = a
  · subst h
    rw [bumpCounter_get_self]
  · rw [bumpCounter_get_ne mv a a' h]
    exact Nat.le_succ _

theorem classifyEngine_preserve {B : Type} (api : ChessApi B)
    (s : EngineGameState B) :
    (classifyEngine api s).board = s.board ∧
    (classifyEngine api s).moves = s.moves ∧
    (classifyEngine api s).validator = s.validator ∧
    (classifyEngine api s).lastIsLlmTurn = s.lastIsLlmTurn := by
  unfold classifyEngine
  by_cases h : s.result.isSome <;> simp [h]

theorem classifyLLM_preserve {B : Type} (api : ChessApi B)
    (s : LLMGameState B) :
    (classifyLLM api s).board = s.board ∧
    (classifyLLM api s).moves = s.moves ∧
    (classifyLLM api s).validator = s.validator := by
  unfold classifyLLM
  by_cases h : s.result.isSome <;> simp [h]

theorem classifyEngine_result_some {B : Type} (api : ChessApi B)
    (s : EngineGameState B) (r : GameResult) (h : s.result = some r) :
    (classifyEngine api s).result = some r := by
  unfold classifyEngine
  rw [h]
  simpa using h

theorem classifyLLM_result_some {B : Type} (api : ChessApi B)
    (s : LLMGameState B) (r : GameResult) (h : s.result = some r) :
    (classifyLLM api s).result = some r := by
  unfold classifyLLM
  rw [h]
  simpa using h

/-- The engine-loop classifier only ever produces win/draw results — never
the forfeit or engine-error results, which are set by `break` alone. -/
theorem classifyResultEngine_ne_break {B : Type} (api : ChessApi B)
    (lastLlm : Bool) (b : B) :
    classifyResultEngine api lastLlm b ≠
      some .engine_won_illegal_moves ∧
    classifyResultEngine api lastLlm b ≠ some .error_engine_move := by
  unfold classifyResultEngine
  split_ifs <;> cases lastLlm <;> simp

/-- The LLM-loop classifier never produces the forfeit results. -/
theorem classifyResultLLM_ne_break {B : Type} (api : ChessApi B) (b : B) :
    classifyResultLLM api b ≠ some .black_won_illegal_moves ∧
    classifyResultLLM api b ≠ some .white_won_illegal_moves := by
  unfold classifyResultLLM
  split_ifs <;> cases api.turn b <;> simp

theorem classifyResultEngine_isSome {B : Type} (api : ChessApi B)
    (lastLlm : Bool) (b : B) :
    (classifyResultEngine api lastLlm b).isSome =
      (api.isCheckmate b || api.isStalemate b ||
        api.isInsufficientMaterial b || api.isFiftyMoves b ||
        api.isRepetition b) := by
  unfold classifyResultEngine
  split_ifs <;> simp_all

theorem classifyResultLLM_isSome {B : Type} (api : ChessApi B) (b : B) :
    (classifyResultLLM api b).isSome =
      (api.isCheckmate b || api.isStalemate b ||
        api.isInsufficientMaterial b || api.isFiftyMoves b ||
        api.isRepetition b) := by
  unfold classifyResultLLM
  split_ifs <;> simp_all

theorem replayBoard_append {B : Type} (api : ChessApi B) (b0 : B)
    (mvs : List Move) (m : Move) :
    replayBoard api b0 (mvs ++ [m]) =
      api.push (replayBoard api b0 mvs) m := by
  simp [replayBoard]

/-- Inversion of a successful `play_llm_vs_engine` run: the loop returned
some state, which seal/classify turn into the record and final state. -/
theorem play_llm_vs_engine_inv {B : Type} (api : ChessApi B) (b0 : B)
    (mv0 : MoveValidator) (llmName : AgentId) (lpw : Bool)
    (llmSrc : Nat → LLMOutcome) (engSrc : Nat → Option Move) (fuel : Nat)
    (rec : EngineRecord) (sf : EngineGameState B)
    (h : play_llm_vs_engine api b0 mv0 llmName lpw llmSrc engSrc fuel =
      some (rec, sf)) :
    ∃ s, gameLoop (fun st => api.is_game_over st.board)
        (engineStep api llmName lpw llmSrc engSrc) fuel
        (initEngineState b0 mv0 llmName) = some s ∧
      rec = (sealEngine api llmName lpw s).1 ∧
      sf = classifyEngine api s := by
  unfold play_llm_vs_engine at h
  cases hg : gameLoop (fun st => api.is_game_over st.board)
      (engineStep api llmName lpw llmSrc engSrc) fuel
      (initEngineState b0 mv0 llmName) with
  | none => rw [hg] at h; simp at h
  | some s =>
      rw [hg] at h
      have h' : sealEngine api llmName lpw s = (rec, sf) := by
        simpa using h
      refine ⟨s, rfl, ?_, ?_⟩
      · rw [h']
      · have hsf : sf = (sealEngine api llmName lpw s).2 := by rw [h']
        exact hsf

/-- Inversion of a successful `play_llm_vs_llm` run. -/
theorem play_llm_vs_llm_inv {B : Type} (api : ChessApi B) (b0 : B)
    (mv0 : MoveValidator) (wName bName : AgentId)
    (wSrc bSrc : Nat → LLMOutcome) (fuel : Nat)
    (rec : LLMRecord) (sf : LLMGameState B)
    (h : play_llm_vs_llm api b0 mv0 wName bName wSrc bSrc fuel =
      some (rec, sf)) :
    ∃ s, gameLoop (fun st => api.is_game_over st.board)
        (llmStep api wName bName wSrc bSrc) fuel
        (initLLMState b0 mv0 wName bName) = some s ∧
      rec = (sealLLM api wName bName s).1 ∧
      sf = classifyLLM api s := by
  unfold play_llm_vs_llm at h
  cases hg : gameLoop (fun st => api.is_game_over st.board)
      (llmStep api wName bName wSrc bSrc) fuel
      (initLLMState b0 mv0 wName bName) with
  | none => rw [hg] at h; simp at h
  | some s =>
      rw [hg] at h
      have h' : sealLLM api wName bName s = (rec, sf) := by
        simpa using h
      refine ⟨s, rfl, ?_, ?_⟩
      · rw [h']
      · have hsf : sf = (sealLLM api wName bName s).2 := by rw [h']
        exact hsf

/-- The two counters right after the double reset at the start of
`play_llm_vs_llm`. -/
theorem reset_reset_get (mv : MoveValidator) (w b : AgentId) :
    ((mv.reset_counter w).reset_counter b).get_illegal_moves_count w = 0 ∧
    ((mv.reset_counter w).reset_counter b).get_illegal_moves_count b = 0 := by
  constructor
  · by_cases h : w = b
    · subst h
      exact dictGet_dictSet_self ..
    · unfold MoveValidator.reset_counter MoveValidator.get_illegal_moves_count
      rw [dictGet_dictSet_ne _ _ _ _ h]
      exact dictGet_dictSet_self ..
  · exact dictGet_dictSet_self ..

/-! ### Claim C1 -/

/-- C1: an agent's illegal-move counter starts each game at 0 (reset), is
never decremented by any loop iteration, and the forfeiture `break` fires on
the rejection that brings the count to 3 without touching the position or
the move list; consequently a sealed record whose result is a forfeiture has
that side's counter field equal to exactly 3, and every sealed record's
counter fields are at most 3 — in both game loops. -/
theorem C1_forfeit_exactly_three :
    (∀ (mv0 : MoveValidator) (n : AgentId),
      (mv0.reset_counter n).get_illegal_moves_count n = 0) ∧
    (∀ {B : Type} (api : ChessApi B) (llmName : AgentId) (lpw : Bool)
        (llmSrc : Nat → LLMOutcome) (engSrc : Nat → Option Move)
        (s : EngineGameState B) (a : AgentId),
      s.validator.get_illegal_moves_count a ≤
        (engineStep api llmName lpw llmSrc engSrc
          s).state.validator.get_illegal_moves_count a) ∧
    (∀ {B : Type} (api : ChessApi B) (wName bName : AgentId)
        (wSrc bSrc : Nat → LLMOutcome) (s : LLMGameState B) (a : AgentId),
      s.validator.get_illegal_moves_count a ≤
        (llmStep api wName bName wSrc bSrc
          s).state.validator.get_illegal_moves_count a) ∧
    (∀ {B : Type} (api : ChessApi B) (llmName : AgentId) (lpw : Bool)
        (llmSrc : Nat → LLMOutcome) (engSrc : Nat → Option Move)
        (s s' : EngineGameState B),
      engineStep api llmName lpw llmSrc engSrc s = .brk s' →
      s'.board = s.board ∧ s'.moves = s.moves) ∧
    (∀ {B : Type} (api : ChessApi B) (wName bName : AgentId)
        (wSrc bSrc : Nat → LLMOutcome) (s s' : LLMGameState B),
      llmStep api wName bName wSrc bSrc s = .brk s' →
      s'.board = s.board ∧ s'.moves = s.moves) ∧
    (∀ {B : Type} (api : ChessApi B) (b0 : B) (mv0 : MoveValidator)
        (llmName : AgentId) (lpw : Bool) (llmSrc : Nat → LLMOutcome)
        (engSrc : Nat → Option Move) (fuel : Nat) (rec : EngineRecord)
        (sf : EngineGameState B),
      play_llm_vs_engine api b0 mv0 llmName lpw llmSrc engSrc fuel =
        some (rec, sf) →
      rec.illegal_moves ≤ 3 ∧
      (rec.result = some .engine_won_illegal_moves →
        rec.illegal_moves = 3)) ∧
    (∀ {B : Type} (api : ChessApi B) (b0 : B) (mv0 : MoveValidator)
        (wName bName : AgentId) (wSrc bSrc : Nat → LLMOutcome)
        (fuel : Nat) (rec : LLMRecord) (sf : LLMGameState B),
      play_llm_vs_llm api b0 mv0 wName bName wSrc bSrc fuel =
        some (rec, sf) →
      rec.white_illegal_moves ≤ 3 ∧ rec.black_illegal_moves ≤ 3 ∧
      (rec.result = some .black_won_illegal_moves →
        rec.white_illegal_moves = 3) ∧
      (rec.result = some .white_won_illegal_moves →
        rec.black_illegal_moves = 3)) := by
  refine ⟨?_, ?_, ?_, ?_, ?_, ?_, ?_⟩
  · intro mv0 n
    exact dictGet_dictSet_self ..
  · intro B api llmName lpw llmSrc engSrc s a
    rcases engineStep_outcome api llmName lpw llmSrc engSrc s with
      ⟨s', hstep, _, hval, _⟩ | ⟨s', hstep, _, _, hval⟩
    · rw [hstep]
      rcases hval with hv | ⟨hv, _⟩
      · rw [LoopStep.state, hv]
      · rw [LoopStep.state, hv]
        exact bumpCounter_get_mono s.validator llmName a
    · rw [hstep]
      rcases hval with ⟨_, hv, _⟩ | ⟨_, hv⟩
      · rw [LoopStep.state, hv]
        exact bumpCounter_get_mono s.validator llmName a
      · rw [LoopStep.state, hv]
  · intro B api wName bName wSrc bSrc s a
    rcases llmStep_outcome api wName bName wSrc bSrc s with
      ⟨s', hstep, _, hval, _⟩ | ⟨s', hstep, _, _, hval⟩
    · rw [hstep]
      rcases hval with hv | ⟨hv, _⟩ | ⟨hv, _⟩
      · rw [LoopStep.state, hv]
      · rw [LoopStep.state, hv]
        exact bumpCounter_get_mono s.validator wName a
      · rw [LoopStep.state, hv]
        exact bumpCounter_get_mono s.validator bName a
    · rw [hstep]
      rcases hval with ⟨_, hv, _⟩ | ⟨_, hv, _⟩
      · rw [LoopStep.state, hv]
        exact bumpCounter_get_mono s.validator wName a
      · rw [LoopStep.state, hv]
        exact bumpCounter_get_mono s.validator bName a
  · intro B api llmName lpw llmSrc engSrc s s' hstep
    rcases engineStep_outcome api llmName lpw llmSrc engSrc s with
      ⟨s'', h2, _⟩ | ⟨s'', h2, hb, hm, _⟩
    · rw [hstep] at h2
      simp at h2
    · rw [hstep] at h2
      injection h2 with h3
      subst h3
      exact ⟨hb, hm⟩
  · intro B api wName bName wSrc bSrc s s' hstep
    rcases llmStep_outcome api wName bName wSrc bSrc s with
      ⟨s'', h2, _⟩ | ⟨s'', h2, hb, hm, _⟩
    · rw [hstep] at h2
      simp at h2
    · rw [hstep] at h2
      injection h2 with h3
      subst h3
      exact ⟨hb, hm⟩
  · intro B api b0 mv0 llmName lpw llmSrc engSrc fuel rec sf h
    obtain ⟨s, hg, hrec, hsf⟩ :=
      play_llm_vs_engine_inv api b0 mv0 llmName lpw llmSrc engSrc fuel
        rec sf h
    have hpost := gameLoop_post (fun st => api.is_game_over st.board)
      (engineStep api llmName lpw llmSrc engSrc)
      (fun st => st.validator.get_illegal_moves_count llmName ≤ 2 ∧
        st.result = none)
      (fun st => st.validator.get_illegal_moves_count llmName ≤ 3 ∧
        (st.result = some .engine_won_illegal_moves →
          st.validator.get_illegal_moves_count llmName = 3))
      ?_ ?_ ?_ fuel (initEngineState b0 mv0 llmName) s ?_ hg
    · have hval := (classifyEngine_preserve api s).2.2.1
      have hrecil : rec.illegal_moves =
          s.validator.get_illegal_moves_count llmName := by
        rw [hrec]
        show (classifyEngine api s).validator.get_illegal_moves_count
          llmName = _
        rw [hval]
      have hrecres : rec.result = (classifyEngine api s).result := by
        rw [hrec]
        rfl
      refine ⟨by rw [hrecil]; exact hpost.1, ?_⟩
      intro hfor
      cases hs : s.result with
      | some r =>
          have : rec.result = some r := by
            rw [hrecres, classifyEngine_result_some api s r hs]
          rw [this] at hfor
          injection hfor with h4
          subst h4
          rw [hrecil]
          exact hpost.2 hs
      | none =>
          have : rec.result =
              classifyResultEngine api s.lastIsLlmTurn s.board := by
            rw [hrecres, classifyEngine_result_none api s hs]
          rw [this] at hfor
          exact absurd hfor (classifyResultEngine_ne_break api
            s.lastIsLlmTurn s.board).1
    · intro st st' hP hov hstep
      rcases engineStep_outcome api llmName lpw llmSrc engSrc st with
        ⟨s'', h2, hres, hval, _⟩ | ⟨s'', h2, _⟩
      · rw [hstep] at h2
        injection h2 with h3
        subst h3
        refine ⟨?_, by rw [hres, hP.2]⟩
        rcases hval with hv | ⟨_, hv⟩
        · rw [hv]; exact hP.1
        · exact Nat.lt_succ_iff.mp hv
      · rw [hstep] at h2
        simp at h2
    · intro st st' hP hov hstep
      rcases engineStep_outcome api llmName lpw llmSrc engSrc st with
        ⟨s'', h2, _⟩ | ⟨s'', h2, _, _, hres⟩
      · rw [hstep] at h2
        simp at h2
      · rw [hstep] at h2
        injection h2 with h3
        subst h3
        rcases hres with ⟨hr, hv, hge⟩ | ⟨hr, hv⟩
        · have hle : st'.validator.get_illegal_moves_count llmName ≤ 3 := by
            rw [hv]
            calc (bumpCounter st.validator
                llmName).get_illegal_moves_count llmName
                ≤ st.validator.get_illegal_moves_count llmName + 1 :=
                  bumpCounter_get_le ..
              _ ≤ 3 := Nat.succ_le_succ hP.1
          exact ⟨hle, fun _ => Nat.le_antisymm hle hge⟩
        · refine ⟨by rw [hv]; exact Nat.le_trans hP.1 (by norm_num), ?_⟩
          intro heq
          rw [hr] at heq
          simp at heq
    · intro st hP hov
      refine ⟨Nat.le_trans hP.1 (by norm_num), ?_⟩
      intro heq
      rw [hP.2] at heq
      simp at heq
    · constructor
      · show (mv0.reset_counter llmName).get_illegal_moves_count llmName ≤ 2
        unfold MoveValidator.reset_counter
          MoveValidator.get_illegal_moves_count
        rw [dictGet_dictSet_self]
        norm_num
      · rfl
  · intro B api b0 mv0 wName bName wSrc bSrc fuel rec sf h
    obtain ⟨s, hg, hrec, hsf⟩ :=
      play_llm_vs_llm_inv api b0 mv0 wName bName wSrc bSrc fuel rec sf h
    have hpost := gameLoop_post (fun st => api.is_game_over st.board)
      (llmStep api wName bName wSrc bSrc)
      (fun st => st.validator.get_illegal_moves_count wName ≤ 2 ∧
        st.validator.get_illegal_moves_count bName ≤ 2 ∧
        st.result = none)
      (fun st => st.validator.get_illegal_moves_count wName ≤ 3 ∧
        st.validator.get_illegal_moves_count bName ≤ 3 ∧
        (st.result = some .black_won_illegal_moves →
          st.validator.get_illegal_moves_count wName = 3) ∧
        (st.result = some .white_won_illegal_moves →
          st.validator.get_illegal_moves_count bName = 3))
      ?_ ?_ ?_ fuel (initLLMState b0 mv0 wName bName) s ?_ hg
    · have hval := (classifyLLM_preserve api s).2.2
      have hw : rec.white_illegal_moves =
          s.validator.get_illegal_moves_count wName := by
        rw [hrec]
        show (classifyLLM api s).validator.get_illegal_moves_count
          wName = _
        rw [hval]
      have hb : rec.black_illegal_moves =
          s.validator.get_illegal_moves_count bName := by
        rw [hrec]
        show (classifyLLM api s).validator.get_illegal_moves_count
          bName = _
        rw [hval]
      have hrecres : rec.result = (classifyLLM api s).result := by
        rw [hrec]
        rfl
      refine ⟨by rw [hw]; exact hpost.1, by rw [hb]; exact hpost.2.1,
        ?_, ?_⟩
      · intro hfor
        cases hs : s.result with
        | some r =>
            have heq : rec.result = some r := by
              rw [hrecres, classifyLLM_result_some api s r hs]
            rw [heq] at hfor
            injection hfor with h4
            subst h4
            rw [hw]
            exact hpost.2.2.1 hs
        | none =>
            have heq : rec.result = classifyResultLLM api s.board := by
              rw [hrecres, classifyLLM_result_none api s hs]
            rw [heq] at hfor
            exact absurd hfor (classifyResultLLM_ne_break api s.board).1
      · intro hfor
        cases hs : s.result with
        | some r =>
            have heq : rec.result = some r := by
              rw [hrecres, classifyLLM_result_some api s r hs]
            rw [heq] at hfor
            injection hfor with h4
            subst h4
            rw [hb]
            exact hpost.2.2.2 hs
        | none =>
            have heq : rec.result = classifyResultLLM api s.board := by
              rw [hrecres, classifyLLM_result_none api s hs]
            rw [heq] at hfor
            exact absurd hfor (classifyResultLLM_ne_break api s.board).2
    · intro st st' hP hov hstep
      rcases llmStep_outcome api wName bName wSrc bSrc st with
        ⟨s'', h2, hres, hvv, _⟩ | ⟨s'', h2, _⟩
      · rw [hstep] at h2
        injection h2 with h3
        subst h3
        refine ⟨?_, ?_, by rw [hres, hP.2.2]⟩
        · rcases hvv with hv | ⟨hv, hlt⟩ | ⟨hv, hlt⟩
          · rw [hv]; exact hP.1
          · exact Nat.lt_succ_iff.mp hlt
          · by_cases hwb : wName = bName
            · rw [hwb]
              exact Nat.lt_succ_iff.mp hlt
            · rw [hv, bumpCounter_get_ne st.validator bName wName hwb]
              exact hP.1
        · rcases hvv with hv | ⟨hv, hlt⟩ | ⟨hv, hlt⟩
          · rw [hv]; exact hP.2.1
          · by_cases hbw : bName = wName
            · rw [hbw]
              exact Nat.lt_succ_iff.mp hlt
            · rw [hv, bumpCounter_get_ne st.validator wName bName hbw]
              exact hP.2.1
          · exact Nat.lt_succ_iff.mp hlt
      · rw [hstep] at h2
        simp at h2
    · intro st st' hP hov hstep
      rcases llmStep_outcome api wName bName wSrc bSrc st with
        ⟨s'', h2, _⟩ | ⟨s'', h2, _, _, hres⟩
      · rw [hstep] at h2
        simp at h2
      · rw [hstep] at h2
        injection h2 with h3
        subst h3
        rcases hres with ⟨hr, hv, hge⟩ | ⟨hr, hv, hge⟩
        · have hlew : st'.validator.get_illegal_moves_count wName ≤ 3 := by
            rw [hv]
            calc (bumpCounter st.validator
                wName).get_illegal_moves_count wName
                ≤ st.validator.get_illegal_moves_count wName + 1 :=
                  bumpCounter_get_le ..
              _ ≤ 3 := Nat.succ_le_succ hP.1
          have hleb : st'.validator.get_illegal_moves_count bName ≤ 3 := by
            rw [hv]
            calc (bumpCounter st.validator
                wName).get_illegal_moves_count bName
                ≤ st.validator.get_illegal_moves_count bName + 1 :=
                  bumpCounter_get_le ..
              _ ≤ 3 := Nat.succ_le_succ hP.2.1
          refine ⟨hlew, hleb, fun _ => Nat.le_antisymm hlew hge, ?_⟩
          intro heq
          rw [hr] at heq
          simp at heq
        · have hlew : st'.validator.get_illegal_moves_count wName ≤ 3 := by
            rw [hv]
            calc (bumpCounter st.validator
                bName).get_illegal_moves_count wName
                ≤ st.validator.get_illegal_moves_count wName + 1 :=
                  bumpCounter_get_le ..
              _ ≤ 3 := Nat.succ_le_succ hP.1
          have hleb : st'.validator.get_illegal_moves_count bName ≤ 3 := by
            rw [hv]
            calc (bumpCounter st.validator
                bName).get_illegal_moves_count bName
                ≤ st.validator.get_illegal_moves_count bName + 1 :=
                  bumpCounter_get_le ..
              _ ≤ 3 := Nat.succ_le_succ hP.2.1
          refine ⟨hlew, hleb, ?_, fun _ => Nat.le_antisymm hleb hge⟩
          intro heq
          rw [hr] at heq
          simp at heq
    · intro st hP hov
      refine ⟨Nat.le_trans hP.1 (by norm_num),
        Nat.le_trans hP.2.1 (by norm_num), ?_, ?_⟩ <;>
        · intro heq
          rw [hP.2.2] at heq
          simp at heq
    · refine ⟨?_, ?_, rfl⟩
      · show ((mv0.reset_counter wName).reset_counter
            bName).get_illegal_moves_count wName ≤ 2
        rw [(reset_reset_get mv0 wName bName).1]
        norm_num
      · show ((mv0.reset_counter wName).reset_counter
            bName).get_illegal_moves_count bName ≤ 2
        rw [(reset_reset_get mv0 wName bName).2]
        norm_num

/-- C1 witness: a reset counter reads 0; a scripted game in which the LLM's
proposal is always rejected ends in forfeiture with the counter field at
exactly 3, in both loops. -/
theorem C1_forfeit_exactly_three_witness :
    ((MoveValidator.mk [("x", 5)]).reset_counter
        "x").get_illegal_moves_count "x" = 0 ∧
    (engRecForfeit.illegal_moves ≤ 3 ∧
      (engRecForfeit.result = some .engine_won_illegal_moves →
        engRecForfeit.illegal_moves = 3)) ∧
    (llmRecForfeit.white_illegal_moves ≤ 3 ∧
      llmRecForfeit.black_illegal_moves ≤ 3 ∧
      (llmRecForfeit.result = some .black_won_illegal_moves →
        llmRecForfeit.white_illegal_moves = 3) ∧
      (llmRecForfeit.result = some .white_won_illegal_moves →
        llmRecForfeit.black_illegal_moves = 3)) :=
  ⟨C1_forfeit_exactly_three.1 ⟨[("x", 5)]⟩ "x",
   C1_forfeit_exactly_three.2.2.2.2.2.1 unitApi () ⟨[]⟩ "modelA" true
     (fun _ => .success "xx") (fun _ => none) 10 engRecForfeit
     engSfForfeit (by decide),
   C1_forfeit_exactly_three.2.2.2.2.2.2 unitApi () ⟨[]⟩ "w" "b"
     (fun _ => .success "xx") (fun _ => .success "e4") 10 llmRecForfeit
     llmSfForfeit (by decide)⟩

/-! ### Claim C8 -/

/-- C8: replaying the sealed record's `moves` list from the game's starting
board reproduces exactly the terminal board, and — whenever the game ended
by the board's own terminal conditions rather than by a `break` (forfeit /
engine failure) — the record's `result` is exactly the terminal-condition
classification of that replayed board; in both loops. -/
theorem C8_replay_roundtrip :
    (∀ {B : Type} (api : ChessApi B) (b0 : B) (mv0 : MoveValidator)
        (llmName : AgentId) (lpw : Bool) (llmSrc : Nat → LLMOutcome)
        (engSrc : Nat → Option Move) (fuel : Nat) (rec : EngineRecord)
        (sf : EngineGameState B),
      play_llm_vs_engine api b0 mv0 llmName lpw llmSrc engSrc fuel =
        some (rec, sf) →
      replayBoard api b0 rec.moves = sf.board ∧
      (rec.result ≠ some .engine_won_illegal_moves →
        rec.result ≠ some .error_engine_move →
        rec.result =
          classifyResultEngine api sf.lastIsLlmTurn sf.board)) ∧
    (∀ {B : Type} (api : ChessApi B) (b0 : B) (mv0 : MoveValidator)
        (wName bName : AgentId) (wSrc bSrc : Nat → LLMOutcome)
        (fuel : Nat) (rec : LLMRecord) (sf : LLMGameState B),
      play_llm_vs_llm api b0 mv0 wName bName wSrc bSrc fuel =
        some (rec, sf) →
      replayBoard api b0 rec.moves = sf.board ∧
      (rec.result ≠ some .black_won_illegal_moves →
        rec.result ≠ some .white_won_illegal_moves →
        rec.result = classifyResultLLM api sf.board)) := by
  constructor
  · intro B api b0 mv0 llmName lpw llmSrc engSrc fuel rec sf h
    obtain ⟨s, hg, hrec, hsf⟩ :=
      play_llm_vs_engine_inv api b0 mv0 llmName lpw llmSrc engSrc fuel
        rec sf h
    have hpost := gameLoop_post (fun st => api.is_game_over st.board)
      (engineStep api llmName lpw llmSrc engSrc)
      (fun st => replayBoard api b0 st.moves = st.board ∧
        st.result = none)
      (fun st => replayBoard api b0 st.moves = st.board ∧
        (st.result = none ∨
          st.result = some .engine_won_illegal_moves ∨
          st.result = some .error_engine_move))
      ?_ ?_ ?_ fuel (initEngineState b0 mv0 llmName) s ⟨rfl, rfl⟩ hg
    · have hmvs : rec.moves = s.moves := by
        rw [hrec]
        show (classifyEngine api s).moves = s.moves
        exact (classifyEngine_preserve api s).2.1
      have hbd : sf.board = s.board := by
        rw [hsf]
        exact (classifyEngine_preserve api s).1
      have hlast : sf.lastIsLlmTurn = s.lastIsLlmTurn := by
        rw [hsf]
        exact (classifyEngine_preserve api s).2.2.2
      have hrecres : rec.result = (classifyEngine api s).result := by
        rw [hrec]
        rfl
      refine ⟨by rw [hmvs, hbd]; exact hpost.1, ?_⟩
      intro hne1 hne2
      rcases hpost.2 with hres | hres | hres
      · rw [hlast, hbd, hrecres, classifyEngine_result_none api s hres]
      · exact absurd (by
          rw [hrecres, classifyEngine_result_some api s _ hres]) hne1
      · exact absurd (by
          rw [hrecres, classifyEngine_result_some api s _ hres]) hne2
    · intro st st' hP hov hstep
      rcases engineStep_outcome api llmName lpw llmSrc engSrc st with
        ⟨s'', h2, hres, _, hbm⟩ | ⟨s'', h2, _⟩
      · rw [hstep] at h2
        injection h2 with h3
        subst h3
        refine ⟨?_, by rw [hres, hP.2]⟩
        rcases hbm with ⟨hb, hm⟩ | ⟨m, hb, hm⟩
        · rw [hb, hm]; exact hP.1
        · rw [hb, hm, replayBoard_append, hP.1]
      · rw [hstep] at h2
        simp at h2
    · intro st st' hP hov hstep
      rcases engineStep_outcome api llmName lpw llmSrc engSrc st with
        ⟨s'', h2, _⟩ | ⟨s'', h2, hb, hm, hres⟩
      · rw [hstep] at h2
        simp at h2
      · rw [hstep] at h2
        injection h2 with h3
        subst h3
        refine ⟨by rw [hb, hm]; exact hP.1, ?_⟩
        rcases hres with ⟨hr, _⟩ | ⟨hr, _⟩
        · exact Or.inr (Or.inl hr)
        · exact Or.inr (Or.inr hr)
    · intro st hP hov
      exact ⟨hP.1, Or.inl hP.2⟩
  · intro B api b0 mv0 wName bName wSrc bSrc fuel rec sf h
    obtain ⟨s, hg, hrec, hsf⟩ :=
      play_llm_vs_llm_inv api b0 mv0 wName bName wSrc bSrc fuel rec sf h
    have hpost := gameLoop_post (fun st => api.is_game_over st.board)
      (llmStep api wName bName wSrc bSrc)
      (fun st => replayBoard api b0 st.moves = st.board ∧
        st.result = none)
      (fun st => replayBoard api b0 st.moves = st.board ∧
        (st.result = none ∨
          st.result = some .black_won_illegal_moves ∨
          st.result = some .white_won_illegal_moves))
      ?_ ?_ ?_ fuel (initLLMState b0 mv0 wName bName) s ⟨rfl, rfl⟩ hg
    · have hmvs : rec.moves = s.moves := by
        rw [hrec]
        show (classifyLLM api s).moves = s.moves
        exact (classifyLLM_preserve api s).2.1
      have hbd : sf.board = s.board := by
        rw [hsf]
        exact (classifyLLM_preserve api s).1
      have hrecres : rec.result = (classifyLLM api s).result := by
        rw [hrec]
        rfl
      refine ⟨by rw [hmvs, hbd]; exact hpost.1, ?_⟩
      intro hne1 hne2
      rcases hpost.2 with hres | hres | hres
      · rw [hbd, hrecres, classifyLLM_result_none api s hres]
      · exact absurd (by
          rw [hrecres, classifyLLM_result_some api s _ hres]) hne1
      · exact absurd (by
          rw [hrecres, classifyLLM_result_some api s _ hres]) hne2
    · intro st st' hP hov hstep
      rcases llmStep_outcome api wName bName wSrc bSrc st with
        ⟨s'', h2, hres, _, hbm⟩ | ⟨s'', h2, _⟩
      · rw [hstep] at h2
        injection h2 with h3
        subst h3
        refine ⟨?_, by rw [hres, hP.2]⟩
        rcases hbm with ⟨hb, hm⟩ | ⟨m, hb, hm⟩
        · rw [hb, hm]; exact hP.1
        · rw [hb, hm, replayBoard_append, hP.1]
      · rw [hstep] at h2
        simp at h2
    · intro st st' hP hov hstep
      rcases llmStep_outcome api wName bName wSrc bSrc st with
        ⟨s'', h2, _⟩ | ⟨s'', h2, hb, hm, hres⟩
      · rw [hstep] at h2
        simp at h2
      · rw [hstep] at h2
        injection h2 with h3
        subst h3
        refine ⟨by rw [hb, hm]; exact hP.1, ?_⟩
        rcases hres with ⟨hr, _⟩ | ⟨hr, _⟩
        · exact Or.inr (Or.inl hr)
        · exact Or.inr (Or.inr hr)
    · intro st hP hov
      exact ⟨hP.1, Or.inl hP.2⟩

/-- C8 witness: the scripted one-move checkmate games replay to their
terminal boards and their results agree with the terminal classification. -/
theorem C8_replay_roundtrip_witness :
    (replayBoard natApi 0 engRecMate.moves = engSfMate.board ∧
      (engRecMate.result ≠ some .engine_won_illegal_moves →
        engRecMate.result ≠ some .error_engine_move →
        engRecMate.result =
          classifyResultEngine natApi engSfMate.lastIsLlmTurn
            engSfMate.board)) ∧
    (replayBoard natApi 0 llmRecMate.moves = llmSfMate.board ∧
      (llmRecMate.result ≠ some .black_won_illegal_moves →
        llmRecMate.result ≠ some .white_won_illegal_moves →
        llmRecMate.result = classifyResultLLM natApi llmSfMate.board)) :=
  ⟨C8_replay_roundtrip.1 natApi 0 ⟨[]⟩ "modelA" true
     (fun _ => .success "Qh7") (fun _ => none) 10 engRecMate engSfMate
     (by decide),
   C8_replay_roundtrip.2 natApi 0 ⟨[]⟩ "w" "b"
     (fun _ => .success "Qh7") (fun _ => .success "Qh7") 10 llmRecMate
     llmSfMate (by decide)⟩

/-! ### Classifier coverage helpers -/

/-- Under the python-chess facts that the seventy-five-move rule implies the
fifty-move flag (halfmove clock 150 ≥ 100) and fivefold implies threefold
repetition, the engine-loop classifier fires on every automatically
game-over board. -/
theorem classifyResultEngine_covers {B : Type} (api : ChessApi B)
    (lastLlm : Bool) (b : B)
    (h75 : api.isSeventyfiveMoves b = true → api.isFiftyMoves b = true)
    (h5f : api.isFivefoldRepetition b = true → api.isRepetition b = true)
    (hov : api.is_game_over b = true) :
    (classifyResultEngine api lastLlm b).isSome = true := by
  rw [classifyResultEngine_isSome]
  unfold ChessApi.is_game_over at hov
  simp only [Bool.or_eq_true] at hov ⊢
  rcases hov with (((h | h) | h) | h) | h
  · exact Or.inl (Or.inl (Or.inl (Or.inl h)))
  · exact Or.inl (Or.inl (Or.inl (Or.inr h)))
  · exact Or.inl (Or.inl (Or.inr h))
  · exact Or.inl (Or.inr (h75 h))
  · exact Or.inr (h5f h)

/-- Same coverage statement for the LLM-vs-LLM classifier. -/
theorem classifyResultLLM_covers {B : Type} (api : ChessApi B) (b : B)
    (h75 : api.isSeventyfiveMoves b = true → api.isFiftyMoves b = true)
    (h5f : api.isFivefoldRepetition b = true → api.isRepetition b = true)
    (hov : api.is_game_over b = true) :
    (classifyResultLLM api b).isSome = true := by
  rw [classifyResultLLM_isSome]
  unfold ChessApi.is_game_over at hov
  simp only [Bool.or_eq_true] at hov ⊢
  rcases hov with (((h | h) | h) | h) | h
  · exact Or.inl (Or.inl (Or.inl (Or.inl h)))
  · exact Or.inl (Or.inl (Or.inl (Or.inr h)))
  · exact Or.inl (Or.inl (Or.inr h))
  · exact Or.inl (Or.inr (h75 h))
  · exact Or.inr (h5f h)

/-! ### Claim C10 -/

/-- C10: every `break` sets the result first and the post-loop classifier
covers every automatic game-over condition — seventy-five-move and fivefold
terminations landing in the fifty-move and repetition draw branches — so
every record returned by either loop carries a non-`None` result (given the
python-chess facts 75-move → fifty-move flag, fivefold → threefold). -/
theorem C10_result_always_set :
    (∀ {B : Type} (api : ChessApi B) (lastLlm : Bool) (b : B),
      (api.isSeventyfiveMoves b = true → api.isFiftyMoves b = true) →
      (api.isFivefoldRepetition b = true → api.isRepetition b = true) →
      api.is_game_over b = true →
      (classifyResultEngine api lastLlm b).isSome = true) ∧
    (∀ {B : Type} (api : ChessApi B) (b : B),
      (api.isSeventyfiveMoves b = true → api.isFiftyMoves b = true) →
      (api.isFivefoldRepetition b = true → api.isRepetition b = true) →
      api.is_game_over b = true →
      (classifyResultLLM api b).isSome = true) ∧
    (∀ {B : Type} (api : ChessApi B) (lastLlm : Bool) (b : B),
      api.isCheckmate b = false → api.isStalemate b = false →
      api.isInsufficientMaterial b = false →
      (api.isSeventyfiveMoves b = true → api.isFiftyMoves b = true) →
      api.isSeventyfiveMoves b = true →
      classifyResultEngine api lastLlm b = some .draw_fifty_moves ∧
      classifyResultLLM api b = some .draw_fifty_moves) ∧
    (∀ {B : Type} (api : ChessApi B) (lastLlm : Bool) (b : B),
      api.isCheckmate b = false → api.isStalemate b = false →
      api.isInsufficientMaterial b = false → api.isFiftyMoves b = false →
      (api.isFivefoldRepetition b = true → api.isRepetition b = true) →
      api.isFivefoldRepetition b = true →
      classifyResultEngine api lastLlm b = some .draw_repetition ∧
      classifyResultLLM api b = some .draw_repetition) ∧
    (∀ {B : Type} (api : ChessApi B) (b0 : B) (mv0 : MoveValidator)
        (llmName : AgentId) (lpw : Bool) (llmSrc : Nat → LLMOutcome)
        (engSrc : Nat → Option Move) (fuel : Nat) (rec : EngineRecord)
        (sf : EngineGameState B),
      (∀ b, api.isSeventyfiveMoves b = true → api.isFiftyMoves b = true) →
      (∀ b, api.isFivefoldRepetition b = true →
        api.isRepetition b = true) →
      play_llm_vs_engine api b0 mv0 llmName lpw llmSrc engSrc fuel =
        some (rec, sf) →
      rec.result.isSome = true) ∧
    (∀ {B : Type} (api : ChessApi B) (b0 : B) (mv0 : MoveValidator)
        (wName bName : AgentId) (wSrc bSrc : Nat → LLMOutcome)
        (fuel : Nat) (rec : LLMRecord) (sf : LLMGameState B),
      (∀ b, api.isSeventyfiveMoves b = true → api.isFiftyMoves b = true) →
      (∀ b, api.isFivefoldRepetition b = true →
        api.isRepetition b = true) →
      play_llm_vs_llm api b0 mv0 wName bName wSrc bSrc fuel =
        some (rec, sf) →
      rec.result.isSome = true) := by
  refine ⟨?_, ?_, ?_, ?_, ?_, ?_⟩
  · intro B api lastLlm b h75 h5f hov
    exact classifyResultEngine_covers api lastLlm b h75 h5f hov
  · intro B api b h75 h5f hov
    exact classifyResultLLM_covers api b h75 h5f hov
  · intro B api lastLlm b hcm hsm hins h75b h75t
    have hf := h75b h75t
    constructor
    · unfold classifyResultEngine
      simp [hcm, hsm, hins, hf]
    · unfold classifyResultLLM
      simp [hcm, hsm, hins, hf]
  · intro B api lastLlm b hcm hsm hins hfifty h5fb h5ft
    have hr := h5fb h5ft
    constructor
    · unfold classifyResultEngine
      simp [hcm, hsm, hins, hfifty, hr]
    · unfold classifyResultLLM
      simp [hcm, hsm, hins, hfifty, hr]
  · intro B api b0 mv0 llmName lpw llmSrc engSrc fuel rec sf h75 h5f h
    obtain ⟨s, hg, hrec, hsf⟩ :=
      play_llm_vs_engine_inv api b0 mv0 llmName lpw llmSrc engSrc fuel
        rec sf h
    have hpost := gameLoop_post (fun st => api.is_game_over st.board)
      (engineStep api llmName lpw llmSrc engSrc)
      (fun _ => True)
      (fun st => st.result.isSome = true ∨
        api.is_game_over st.board = true)
      (fun _ _ _ _ _ => trivial) ?_ (fun st _ hov => Or.inr hov)
      fuel (initEngineState b0 mv0 llmName) s trivial hg
    · have hrr : rec.result = (classifyEngine api s).result := by
        rw [hrec]
        rfl
      cases hs : s.result with
      | some r =>
          rw [hrr, classifyEngine_result_some api s r hs]
          rfl
      | none =>
          rcases hpost with hsome | hover
          · rw [hs] at hsome
            simp at hsome
          · rw [hrr, classifyEngine_result_none api s hs]
            exact classifyResultEngine_covers api s.lastIsLlmTurn s.board
              (h75 s.board) (h5f s.board) hover
    · intro st st' _ hov hstep
      rcases engineStep_outcome api llmName lpw llmSrc engSrc st with
        ⟨s'', h2, _⟩ | ⟨s'', h2, _, _, hres⟩
      · rw [hstep] at h2
        simp at h2
      · rw [hstep] at h2
        injection h2 with h3
        subst h3
        rcases hres with ⟨hr, _⟩ | ⟨hr, _⟩ <;>
          exact Or.inl (by rw [hr]; rfl)
  · intro B api b0 mv0 wName bName wSrc bSrc fuel rec sf h75 h5f h
    obtain ⟨s, hg, hrec, hsf⟩ :=
      play_llm_vs_llm_inv api b0 mv0 wName bName wSrc bSrc fuel rec sf h
    have hpost := gameLoop_post (fun st => api.is_game_over st.board)
      (llmStep api wName bName wSrc bSrc)
      (fun _ => True)
      (fun st => st.result.isSome = true ∨
        api.is_game_over st.board = true)
      (fun _ _ _ _ _ => trivial) ?_ (fun st _ hov => Or.inr hov)
      fuel (initLLMState b0 mv0 wName bName) s trivial hg
    · have hrr : rec.result = (classifyLLM api s).result := by
        rw [hrec]
        rfl
      cases hs : s.result with
      | some r =>
          rw [hrr, classifyLLM_result_some api s r hs]
          rfl
      | none =>
          rcases hpost with hsome | hover
          · rw [hs] at hsome
            simp at hsome
          · rw [hrr, classifyLLM_result_none api s hs]
            exact classifyResultLLM_covers api s.board
              (h75 s.board) (h5f s.board) hover
    · intro st st' _ hov hstep
      rcases llmStep_outcome api wName bName wSrc bSrc st with
        ⟨s'', h2, _⟩ | ⟨s'', h2, _, _, hres⟩
      · rw [hstep] at h2
        simp at h2
      · rw [hstep] at h2
        injection h2 with h3
        subst h3
        rcases hres with ⟨hr, _⟩ | ⟨hr, _⟩ <;>
          exact Or.inl (by rw [hr]; rfl)

/-- C10 witness: checkmate coverage on the scripted boards, the
seventy-five-move board classified as `draw_fifty_moves`, the fivefold board
as `draw_repetition`, and concrete runs in both loops ending with a set
result. -/
theorem C10_result_always_set_witness :
    (classifyResultEngine natApi true 1).isSome = true ∧
    (classifyResultLLM natApi 1).isSome = true ∧
    (classifyResultEngine fiftyApi true 5 = some .draw_fifty_moves ∧
      classifyResultLLM fiftyApi 5 = some .draw_fifty_moves) ∧
    (classifyResultEngine natApi true 4 = some .draw_repetition ∧
      classifyResultLLM natApi 4 = some .draw_repetition) ∧
    engRecMate.result.isSome = true ∧
    llmRecMate.result.isSome = true :=
  ⟨C10_result_always_set.1 natApi true 1 (by decide) (by decide)
     (by decide),
   C10_result_always_set.2.1 natApi 1 (by decide) (by decide) (by decide),
   C10_result_always_set.2.2.1 fiftyApi true 5 (by decide) (by decide)
     (by decide) (by decide) (by decide),
   C10_result_always_set.2.2.2.1 natApi true 4 (by decide) (by decide)
     (by decide) (by decide) (by decide) (by decide),
   C10_result_always_set.2.2.2.2.1 natApi 0 ⟨[]⟩ "modelA" true
     (fun _ => .success "Qh7") (fun _ => none) 10 engRecMate engSfMate
     (fun b h => by simp [natApi] at h) (fun b h => h) (by decide),
   C10_result_always_set.2.2.2.2.2 natApi 0 ⟨[]⟩ "w" "b"
     (fun _ => .success "Qh7") (fun _ => .success "Qh7") 10 llmRecMate
     llmSfMate (fun b h => by simp [natApi] at h) (fun b h => h)
     (by decide)⟩

/-! ### Claim C3 -/

/-- C3 counterexample: a scripted game on `fiftyApi` reaches, after its
first two moves, the board `2` on which the fifty-move flag is already set —
yet `is_game_over` is false there (python-chess does not end the game at the
claimable fifty-move draw), so the loop keeps running: the sealed record
contains a *third* move and the result is `llm_won` (a later checkmate), not
`draw_fifty_moves`.  This refutes "the game loop terminates at that point". -/
theorem C3_fifty_moves_counterexample :
    fiftyApi.isFiftyMoves
      (replayBoard fiftyApi 0 [⟨"h5h7"⟩, ⟨"h5h7"⟩]) = true ∧
    fiftyApi.is_game_over
      (replayBoard fiftyApi 0 [⟨"h5h7"⟩, ⟨"h5h7"⟩]) = false ∧
    (play_llm_vs_engine fiftyApi 0 ⟨[]⟩ "modelA" true
        (fun _ => .success "Qh7") (fun _ => some ⟨"h5h7"⟩) 10).map
      (fun p => (p.1.moves, p.1.result)) =
      some ([⟨"h5h7"⟩, ⟨"h5h7"⟩, ⟨"h5h7"⟩], some .llm_won) := by
  decide

/-- C3 amended: the loop does *not* terminate when the claimable fifty-move
condition first holds; it terminates only when the board reports the game
automatically over — for a long quiet game, at the seventy-five-move rule —
and the post-loop classifier then records that termination as
`draw_fifty_moves` (since the fifty-move flag also holds there); in both
loops. -/
theorem C3_seventyfive_terminates_as_fifty :
    (∀ {B : Type} (api : ChessApi B) (llmName : AgentId) (lpw : Bool)
        (llmSrc : Nat → LLMOutcome) (engSrc : Nat → Option Move)
        (s : EngineGameState B) (fuel : Nat),
      s.result = none →
      api.isSeventyfiveMoves s.board = true →
      api.isCheckmate s.board = false →
      api.isStalemate s.board = false →
      api.isInsufficientMaterial s.board = false →
      api.isFiftyMoves s.board = true →
      gameLoop (fun st => api.is_game_over st.board)
          (engineStep api llmName lpw llmSrc engSrc) (fuel + 1) s =
        some s ∧
      (classifyEngine api s).result = some .draw_fifty_moves) ∧
    (∀ {B : Type} (api : ChessApi B) (wName bName : AgentId)
        (wSrc bSrc : Nat → LLMOutcome) (s : LLMGameState B) (fuel : Nat),
      s.result = none →
      api.isSeventyfiveMoves s.board = true →
      api.isCheckmate s.board = false →
      api.isStalemate s.board = false →
      api.isInsufficientMaterial s.board = false →
      api.isFiftyMoves s.board = true →
      gameLoop (fun st => api.is_game_over st.board)
          (llmStep api wName bName wSrc bSrc) (fuel + 1) s = some s ∧
      (classifyLLM api s).result = some .draw_fifty_moves) := by
  constructor
  · intro B api llmName lpw llmSrc engSrc s fuel hres h75 hcm hsm hins hf
    have hov : api.is_game_over s.board = true := by
      unfold ChessApi.is_game_over
      simp [h75]
    constructor
    · unfold gameLoop
      simp [hov]
    · rw [classifyEngine_result_none api s hres]
      unfold classifyResultEngine
      simp [hcm, hsm, hins, hf]
  · intro B api wName bName wSrc bSrc s fuel hres h75 hcm hsm hins hf
    have hov : api.is_game_over s.board = true := by
      unfold ChessApi.is_game_over
      simp [h75]
    constructor
    · unfold gameLoop
      simp [hov]
    · rw [classifyLLM_result_none api s hres]
      unfold classifyResultLLM
      simp [hcm, hsm, hins, hf]

/-- C3 witness for the amended claim: at the seventy-five-move board of
`fiftyApi` both loops stop immediately and classify the game as
`draw_fifty_moves`. -/
theorem C3_seventyfive_terminates_as_fifty_witness :
    (gameLoop (fun st => fiftyApi.is_game_over st.board)
        (engineStep fiftyApi "modelA" true (fun _ => .success "Qh7")
          (fun _ => none)) 1 engN5 = some engN5 ∧
      (classifyEngine fiftyApi engN5).result = some .draw_fifty_moves) ∧
    (gameLoop (fun st => fiftyApi.is_game_over st.board)
        (llmStep fiftyApi "w" "b" (fun _ => .success "Qh7")
          (fun _ => .success "Qh7")) 1 llmN5 = some llmN5 ∧
      (classifyLLM fiftyApi llmN5).result = some .draw_fifty_moves) :=
  ⟨C3_seventyfive_terminates_as_fifty.1 fiftyApi "modelA" true
     (fun _ => .success "Qh7") (fun _ => none) engN5 0 rfl (by decide)
     (by decide) (by decide) (by decide) (by decide),
   C3_seventyfive_terminates_as_fifty.2 fiftyApi "w" "b"
     (fun _ => .success "Qh7") (fun _ => .success "Qh7") llmN5 0 rfl
     (by decide) (by decide) (by decide) (by decide) (by decide)⟩

end LLMChessEval
